import Mathlib

/-!
# Ray / shape intersection core of the path tracer (`Code/hitable.h`)

A shallow embedding of the `hitable` hierarchy: the three axis-aligned
rectangles and the decorators `flip_normals`, `translate`, `rotate_y`, with
their two virtual functions `hit` and `bounding_box`.

Numbers.  The development is generic in an ordered field `K` (the rationals
when a definition is evaluated, the reals when an angle's sine is needed).
What the scene and the caller supply are numbers of `K`: the members of the
objects, the rays, the intervals, the boxes.  What the code computes into a hit
record is a `float K`: a number of `K`, one of the two infinities, or NaN, with
the IEEE 754 rules for the special values, so that a division by zero and the
comparisons that follow it behave as in the program.  The content of a record
before a call is arbitrary, special values included.  Rounding, overflow and
the sign of zero are left out: arithmetic on numbers is exact.  The one place
where rounding is followed is `xy_rect_bounding_box_float`, the box of
`xy_rect::bounding_box` as it is stored in `float` members.

The headers `vec3.h`, `ray.h` and `aabb.h` are not part of the source; their
types are given here with the componentwise operations the code relies on.
-/

namespace PathTracer

/-- Value of a C `float` variable: a number, `+inf`, `-inf` or NaN. -/
inductive float (K : Type) where
  | fin (x : K)
  | pinf
  | ninf
  | nan
  deriving DecidableEq, Repr

section Definitions

variable {K : Type} [LinearOrderedField K]

namespace float

/-- Unary minus of IEEE arithmetic. -/
def neg : float K → float K
  | fin x => fin (-x)
  | pinf => ninf
  | ninf => pinf
  | nan => nan

/-- Addition of IEEE arithmetic: NaN is absorbing, `inf + (-inf)` is NaN. -/
def add : float K → float K → float K
  | fin x, fin y => fin (x + y)
  | fin _, pinf => pinf
  | fin _, ninf => ninf
  | pinf, fin _ => pinf
  | pinf, pinf => pinf
  | pinf, ninf => nan
  | ninf, fin _ => ninf
  | ninf, pinf => nan
  | ninf, ninf => ninf
  | nan, _ => nan
  | _, nan => nan

/-- Subtraction of IEEE arithmetic. -/
def sub (a b : float K) : float K := add a (neg b)

/-- The product of `+inf` with the number `y`: `inf * 0` is NaN. -/
def inf_times (y : K) : float K :=
  if 0 < y then pinf else if y < 0 then ninf else nan

/-- Multiplication of IEEE arithmetic. -/
def mul : float K → float K → float K
  | fin x, fin y => fin (x * y)
  | fin x, pinf => inf_times x
  | fin x, ninf => neg (inf_times x)
  | pinf, fin y => inf_times y
  | pinf, pinf => pinf
  | pinf, ninf => ninf
  | ninf, fin y => neg (inf_times y)
  | ninf, pinf => ninf
  | ninf, ninf => pinf
  | nan, _ => nan
  | _, nan => nan

/-- Division of IEEE arithmetic: `0/0` and `inf/inf` are NaN, a nonzero number
over zero is an infinity (of the numerator's sign, zero being unsigned here). -/
def div : float K → float K → float K
  | fin x, fin y => if y = 0 then inf_times x else fin (x / y)
  | fin _, pinf => fin 0
  | fin _, ninf => fin 0
  | pinf, fin y => if y < 0 then ninf else pinf
  | pinf, pinf => nan
  | pinf, ninf => nan
  | ninf, fin y => if y < 0 then pinf else ninf
  | ninf, pinf => nan
  | ninf, ninf => nan
  | nan, _ => nan
  | _, nan => nan

/-- Comparison `a < b` of IEEE arithmetic: false as soon as one side is NaN. -/
def lt : float K → float K → Bool
  | fin x, fin y => decide (x < y)
  | fin _, pinf => true
  | fin _, ninf => false
  | pinf, _ => false
  | ninf, fin _ => true
  | ninf, pinf => true
  | ninf, ninf => false
  | ninf, nan => false
  | nan, _ => false
  | fin _, nan => false

/-- Comparison `a <= b` of IEEE arithmetic: false as soon as one side is NaN. -/
def le : float K → float K → Bool
  | fin x, fin y => decide (x ≤ y)
  | fin _, pinf => true
  | fin _, ninf => false
  | pinf, pinf => true
  | pinf, fin _ => false
  | pinf, ninf => false
  | pinf, nan => false
  | ninf, fin _ => true
  | ninf, pinf => true
  | ninf, ninf => true
  | ninf, nan => false
  | nan, _ => false
  | fin _, nan => false

instance : Neg (float K) := ⟨neg⟩
instance : Add (float K) := ⟨add⟩
instance : Sub (float K) := ⟨sub⟩
instance : Mul (float K) := ⟨mul⟩
instance : Div (float K) := ⟨div⟩
instance : LT (float K) := ⟨fun a b => lt a b = true⟩
instance : LE (float K) := ⟨fun a b => le a b = true⟩
instance (a b : float K) : Decidable (a < b) := inferInstanceAs (Decidable (lt a b = true))
instance (a b : float K) : Decidable (a ≤ b) := inferInstanceAs (Decidable (le a b = true))

end float

/-- Modelled from the spec: the vector type of `vec3.h`, three components
(`e[0]`, `e[1]`, `e[2]`, read by `x()`, `y()`, `z()`). -/
structure vec3 (α : Type) where
  x : α
  y : α
  z : α
  deriving DecidableEq, Repr

namespace vec3

/-- Modelled from the spec: componentwise `operator+` of `vec3.h`. -/
def add {α : Type} [Add α] (a b : vec3 α) : vec3 α := ⟨a.x + b.x, a.y + b.y, a.z + b.z⟩

/-- Modelled from the spec: componentwise `operator-` of `vec3.h`. -/
def sub {α : Type} [Sub α] (a b : vec3 α) : vec3 α := ⟨a.x - b.x, a.y - b.y, a.z - b.z⟩

/-- Modelled from the spec: componentwise unary minus of `vec3.h`. -/
def neg {α : Type} [Neg α] (a : vec3 α) : vec3 α := ⟨-a.x, -a.y, -a.z⟩

instance {α : Type} [Add α] : Add (vec3 α) := ⟨add⟩
instance {α : Type} [Sub α] : Sub (vec3 α) := ⟨sub⟩
instance {α : Type} [Neg α] : Neg (vec3 α) := ⟨neg⟩

/-- A vector of numbers read as a vector of `float` values. -/
def lift (a : vec3 K) : vec3 (float K) := ⟨float.fin a.x, float.fin a.y, float.fin a.z⟩

end vec3

/-- Modelled from the spec: the ray of `ray.h`, an origin `A`, a direction `B`
and a time. -/
structure ray (K : Type) where
  A : vec3 K
  B : vec3 K
  _time : K
  deriving DecidableEq, Repr

namespace ray

/-- Accessor `origin()`. -/
def origin (r : ray K) : vec3 K := r.A

/-- Accessor `direction()`. -/
def direction (r : ray K) : vec3 K := r.B

/-- Accessor `time()`. -/
def time (r : ray K) : K := r._time

/-- Modelled from the spec: the point-at-parameter evaluator of `ray.h`,
`origin + t * direction`, for a computed parameter `t`. -/
def point_at_parameter (r : ray K) (t : float K) : vec3 (float K) :=
  ⟨float.fin r.A.x + t * float.fin r.B.x,
   float.fin r.A.y + t * float.fin r.B.y,
   float.fin r.A.z + t * float.fin r.B.z⟩

end ray

/-- Modelled from the spec: the box of `aabb.h`, a min corner and a max
corner. -/
structure aabb (K : Type) where
  _min : vec3 K
  _max : vec3 K
  deriving DecidableEq, Repr

namespace aabb

/-- Accessor `min()`. -/
def min (b : aabb K) : vec3 K := b._min

/-- Accessor `max()`. -/
def max (b : aabb K) : vec3 K := b._max

end aabb

/-- A `material *`: the address held by the pointer. -/
abbrev material_ptr := Nat

/-- The `hit_record` struct. -/
structure hit_record (K : Type) where
  t : float K
  u : float K
  v : float K
  p : vec3 (float K)
  normal : vec3 (float K)
  mat_ptr : material_ptr
  deriving DecidableEq, Repr

/-- The classes deriving from `hitable`.  A constructor of the type stands for an
object with the given member values; `other` is any further implementation of
the two virtual functions whose results depend only on their arguments.  A
function with a reference parameter returns the parameter's final value next
to its `bool`. -/
inductive hitable (K : Type) where
  | xy_rect (x0 x1 y0 y1 k : K) (mp : material_ptr)
  | xz_rect (x0 x1 z0 z1 k : K) (mp : material_ptr)
  | yz_rect (y0 y1 z0 z1 k : K) (mp : material_ptr)
  | flip_normals (ptr : hitable K)
  | translate (ptr : hitable K) (offset : vec3 K)
  | rotate_y (ptr : hitable K) (sin_theta cos_theta : K) (hasbox : Bool) (bbox : aabb K)
  | other (hit : ray K → K → K → hit_record K → Bool × hit_record K)
      (bounding_box : K → K → aabb K → Bool × aabb K)

/-- Function `xy_rect::hit`. -/
def xy_rect_hit (x0 x1 y0 y1 k : K) (mp : material_ptr)
    (r : ray K) (t0 t1 : K) (rec : hit_record K) : Bool × hit_record K :=
  let t : float K := (float.fin k - float.fin r.origin.z) / float.fin r.direction.z
  if t < float.fin t0 ∨ t > float.fin t1 then (false, rec)
  else
    let x : float K := float.fin r.origin.x + t * float.fin r.direction.x
    let y : float K := float.fin r.origin.y + t * float.fin r.direction.y
    if x < float.fin x0 ∨ x > float.fin x1 ∨ y < float.fin y0 ∨ y > float.fin y1 then (false, rec)
    else
      (true,
        { u := (x - float.fin x0) / (float.fin x1 - float.fin x0)
          v := (y - float.fin y0) / (float.fin y1 - float.fin y0)
          t := t
          mat_ptr := mp
          p := r.point_at_parameter t
          normal := ⟨float.fin 0, float.fin 0, float.fin 1⟩ })

/-- Function `xz_rect::hit`. -/
def xz_rect_hit (x0 x1 z0 z1 k : K) (mp : material_ptr)
    (r : ray K) (t0 t1 : K) (rec : hit_record K) : Bool × hit_record K :=
  let t : float K := (float.fin k - float.fin r.origin.y) / float.fin r.direction.y
  if t < float.fin t0 ∨ t > float.fin t1 then (false, rec)
  else
    let x : float K := float.fin r.origin.x + t * float.fin r.direction.x
    let z : float K := float.fin r.origin.z + t * float.fin r.direction.z
    if x < float.fin x0 ∨ x > float.fin x1 ∨ z < float.fin z0 ∨ z > float.fin z1 then (false, rec)
    else
      (true,
        { u := (x - float.fin x0) / (float.fin x1 - float.fin x0)
          v := (z - float.fin z0) / (float.fin z1 - float.fin z0)
          t := t
          mat_ptr := mp
          p := r.point_at_parameter t
          normal := ⟨float.fin 0, float.fin 1, float.fin 0⟩ })

/-- Function `yz_rect::hit`. -/
def yz_rect_hit (y0 y1 z0 z1 k : K) (mp : material_ptr)
    (r : ray K) (t0 t1 : K) (rec : hit_record K) : Bool × hit_record K :=
  let t : float K := (float.fin k - float.fin r.origin.x) / float.fin r.direction.x
  if t < float.fin t0 ∨ t > float.fin t1 then (false, rec)
  else
    let y : float K := float.fin r.origin.y + t * float.fin r.direction.y
    let z : float K := float.fin r.origin.z + t * float.fin r.direction.z
    if y < float.fin y0 ∨ y > float.fin y1 ∨ z < float.fin z0 ∨ z > float.fin z1 then (false, rec)
    else
      (true,
        { u := (y - float.fin y0) / (float.fin y1 - float.fin y0)
          v := (z - float.fin z0) / (float.fin z1 - float.fin z0)
          t := t
          mat_ptr := mp
          p := r.point_at_parameter t
          normal := ⟨float.fin 1, float.fin 0, float.fin 0⟩ })

/-- The ray `moved_r` that `translate::hit` hands to the wrapped object. -/
def translate_moved_r (offset : vec3 K) (r : ray K) : ray K :=
  ⟨r.origin - offset, r.direction, r.time⟩

/-- The ray `rotated_r` that `rotate_y::hit` hands to the wrapped object. -/
def rotate_y_rotated_r (sin_theta cos_theta : K) (r : ray K) : ray K :=
  let origin : vec3 K :=
    ⟨cos_theta * r.origin.x - sin_theta * r.origin.z, r.origin.y,
     sin_theta * r.origin.x + cos_theta * r.origin.z⟩
  let direction : vec3 K :=
    ⟨cos_theta * r.direction.x - sin_theta * r.direction.z, r.direction.y,
     sin_theta * r.direction.x + cos_theta * r.direction.z⟩
  ⟨origin, direction, r.time⟩

/-- The record `rotate_y::hit` leaves after a hit of the wrapped object: `p` and
`normal` get new components 0 and 2. -/
def rotate_y_back (sin_theta cos_theta : K) (rec : hit_record K) : hit_record K :=
  let p : vec3 (float K) :=
    ⟨float.fin cos_theta * rec.p.x + float.fin sin_theta * rec.p.z, rec.p.y,
     float.fin (-sin_theta) * rec.p.x + float.fin cos_theta * rec.p.z⟩
  let normal : vec3 (float K) :=
    ⟨float.fin cos_theta * rec.normal.x + float.fin sin_theta * rec.normal.z, rec.normal.y,
     float.fin (-sin_theta) * rec.normal.x + float.fin cos_theta * rec.normal.z⟩
  { rec with p := p, normal := normal }

/-- The virtual function `hit`, by dispatch on the class of the object. -/
def hitable.hit : hitable K → ray K → K → K → hit_record K → Bool × hit_record K
  | .xy_rect x0 x1 y0 y1 k mp, r, t0, t1, rec => xy_rect_hit x0 x1 y0 y1 k mp r t0 t1 rec
  | .xz_rect x0 x1 z0 z1 k mp, r, t0, t1, rec => xz_rect_hit x0 x1 z0 z1 k mp r t0 t1 rec
  | .yz_rect y0 y1 z0 z1 k mp, r, t0, t1, rec => yz_rect_hit y0 y1 z0 z1 k mp r t0 t1 rec
  | .flip_normals ptr, r, t_min, t_max, rec =>
      match ptr.hit r t_min t_max rec with
      | (true, rec1) => (true, { rec1 with normal := -rec1.normal })
      | (false, rec1) => (false, rec1)
  | .translate ptr offset, r, t_min, t_max, rec =>
      match ptr.hit (translate_moved_r offset r) t_min t_max rec with
      | (true, rec1) => (true, { rec1 with p := rec1.p + offset.lift })
      | (false, rec1) => (false, rec1)
  | .rotate_y ptr sin_theta cos_theta _ _, r, t_min, t_max, rec =>
      match ptr.hit (rotate_y_rotated_r sin_theta cos_theta r) t_min t_max rec with
      | (true, rec1) => (true, rotate_y_back sin_theta cos_theta rec1)
      | (false, rec1) => (false, rec1)
  | .other hit _, r, t_min, t_max, rec => hit r t_min t_max rec

/-- The virtual function `bounding_box`, by dispatch on the class of the
object. -/
def hitable.bounding_box : hitable K → K → K → aabb K → Bool × aabb K
  | .xy_rect x0 x1 y0 y1 k _, _, _, _ =>
      (true, ⟨⟨x0, y0, k - 0.0001⟩, ⟨x1, y1, k + 0.0001⟩⟩)
  | .xz_rect x0 x1 z0 z1 k _, _, _, _ =>
      (true, ⟨⟨x0, k - 0.0001, z0⟩, ⟨x1, k + 0.0001, z1⟩⟩)
  | .yz_rect y0 y1 z0 z1 k _, _, _, _ =>
      (true, ⟨⟨k - 0.0001, y0, z0⟩, ⟨k + 0.0001, y1, z1⟩⟩)
  | .flip_normals ptr, t0, t1, box => ptr.bounding_box t0 t1 box
  | .translate ptr offset, t0, t1, box =>
      match ptr.bounding_box t0 t1 box with
      | (true, box1) => (true, ⟨box1.min + offset, box1.max + offset⟩)
      | (false, box1) => (false, box1)
  | .rotate_y _ _ _ hasbox bbox, _, _, _ => (hasbox, bbox)
  | .other _ bounding_box, t0, t1, box => bounding_box t0 t1 box

/-- The constant `FLT_MAX` of `<cfloat>`. -/
def FLT_MAX : K := 340282346638528859811704183484516925440

/-- The innermost loop of the `rotate_y` constructor (`c` from 0 to 2): `max`
and `min` take each component of `tester` that passes them. -/
def rotate_y_grow (acc : vec3 K × vec3 K) (tester : vec3 K) : vec3 K × vec3 K :=
  let mn := acc.1
  let mx := acc.2
  (⟨if tester.x < mn.x then tester.x else mn.x,
    if tester.y < mn.y then tester.y else mn.y,
    if tester.z < mn.z then tester.z else mn.z⟩,
   ⟨if tester.x > mx.x then tester.x else mx.x,
    if tester.y > mx.y then tester.y else mx.y,
    if tester.z > mx.z then tester.z else mx.z⟩)

/-- The vector `tester` of the `rotate_y` constructor for the loop counters
`i`, `j`, `k`. -/
def rotate_y_tester (sin_theta cos_theta : K) (bbox : aabb K) (i j k : Nat) : vec3 K :=
  let x : K := (i : K) * bbox.max.x + (1 - (i : K)) * bbox.min.x
  let y : K := (j : K) * bbox.max.y + (1 - (j : K)) * bbox.min.y
  let z : K := (k : K) * bbox.max.z + (1 - (k : K)) * bbox.min.z
  let newx : K := cos_theta * x + sin_theta * z
  let newz : K := -sin_theta * x + cos_theta * z
  ⟨newx, y, newz⟩

/-- The three nested loops of the `rotate_y` constructor over the corners of
`bbox`, from `min = FLT_MAX`, `max = -FLT_MAX`; the result is `(min, max)`. -/
def rotate_y_corners (sin_theta cos_theta : K) (bbox : aabb K) : vec3 K × vec3 K :=
  (List.range 2).foldl (fun acc i =>
    (List.range 2).foldl (fun acc j =>
      (List.range 2).foldl (fun acc k =>
        rotate_y_grow acc (rotate_y_tester sin_theta cos_theta bbox i j k)) acc) acc)
    (⟨FLT_MAX, FLT_MAX, FLT_MAX⟩, ⟨-FLT_MAX, -FLT_MAX, -FLT_MAX⟩)

/-- The body of the constructor `rotate_y::rotate_y` once `sin_theta` and
`cos_theta` are set; `bbox0` is the content of the member `bbox` before
`ptr->bounding_box(0, 1, bbox)` is called. -/
def rotate_y_init (p : hitable K) (sin_theta cos_theta : K) (bbox0 : aabb K) : hitable K :=
  let res := p.bounding_box 0 1 bbox0
  let hasbox := res.1
  let bbox := res.2
  let mm := rotate_y_corners sin_theta cos_theta bbox
  hitable.rotate_y p sin_theta cos_theta hasbox ⟨mm.1, mm.2⟩

/-- The constructor `rotate_y::rotate_y(p, angle)`; `sinf` and `cosf` are the
`sin` and `cos` of the math library. -/
def rotate_y_new (sinf cosf : K → K) (p : hitable K) (angle : K) (bbox0 : aabb K) : hitable K :=
  let radians : K := (3.1428 / 180) * angle
  rotate_y_init p (sinf radians) (cosf radians) bbox0

/-- Objects built from the three rectangles by nesting the decorators: no
`other` object occurs in them. -/
def hitable.from_rects : hitable K → Prop
  | .xy_rect .. => True
  | .xz_rect .. => True
  | .yz_rect .. => True
  | .flip_normals ptr => ptr.from_rects
  | .translate ptr _ => ptr.from_rects
  | .rotate_y ptr _ _ _ _ => ptr.from_rects
  | .other _ _ => False

/-- Objects in which every `rotate_y` holds the `hasbox` and `bbox` its
constructor computed from the wrapped object. -/
def hitable.constructed : hitable K → Prop
  | .xy_rect .. => True
  | .xz_rect .. => True
  | .yz_rect .. => True
  | .flip_normals ptr => ptr.constructed
  | .translate ptr _ => ptr.constructed
  | .rotate_y ptr sin_theta cos_theta hasbox bbox =>
      ptr.constructed ∧
        ∃ bbox0, hitable.rotate_y ptr sin_theta cos_theta hasbox bbox
          = rotate_y_init ptr sin_theta cos_theta bbox0
  | .other _ _ => True

/-- The direction component the rectangle under the decorators divides by, for
the ray `r` given to the outermost object (0 for an `other` object). -/
def hitable.axis_direction : hitable K → ray K → K
  | .xy_rect .., r => r.direction.z
  | .xz_rect .., r => r.direction.y
  | .yz_rect .., r => r.direction.x
  | .flip_normals ptr, r => ptr.axis_direction r
  | .translate ptr offset, r => ptr.axis_direction (translate_moved_r offset r)
  | .rotate_y ptr sin_theta cos_theta _ _, r =>
      ptr.axis_direction (rotate_y_rotated_r sin_theta cos_theta r)
  | .other _ _, _ => 0

/-- A sine for evaluating the `rotate_y` constructor on rational numbers: the
first coordinate of the rational parametrisation of the unit circle. -/
def circle_sin (x : K) : K := 2 * x / (1 + x ^ 2)

/-- A cosine for evaluating the `rotate_y` constructor on rational numbers: the
second coordinate of the rational parametrisation of the unit circle. -/
def circle_cos (x : K) : K := (1 - x ^ 2) / (1 + x ^ 2)

/-- The point `q` lies in the box `b`: `b.min <= q <= b.max` in each
component, with the comparisons of `float`. -/
def aabb.encloses (b : aabb K) (q : vec3 (float K)) : Prop :=
  (float.fin b.min.x ≤ q.x ∧ q.x ≤ float.fin b.max.x) ∧
  (float.fin b.min.y ≤ q.y ∧ q.y ≤ float.fin b.max.y) ∧
  (float.fin b.min.z ≤ q.z ∧ q.z ≤ float.fin b.max.z)

/-- Objects in which the two in-plane extents of every rectangle satisfy
`lo <= hi`. -/
def hitable.extents_ordered : hitable K → Prop
  | .xy_rect x0 x1 y0 y1 _ _ => x0 ≤ x1 ∧ y0 ≤ y1
  | .xz_rect x0 x1 z0 z1 _ _ => x0 ≤ x1 ∧ z0 ≤ z1
  | .yz_rect y0 y1 z0 z1 _ _ => y0 ≤ y1 ∧ z0 ≤ z1
  | .flip_normals ptr => ptr.extents_ordered
  | .translate ptr _ => ptr.extents_ordered
  | .rotate_y ptr _ _ _ _ => ptr.extents_ordered
  | .other _ _ => True

/-- Objects in which the stored `sin_theta` and `cos_theta` of every `rotate_y`
satisfy `sin^2 + cos^2 = 1`. -/
def hitable.unit_rotations : hitable K → Prop
  | .xy_rect .. => True
  | .xz_rect .. => True
  | .yz_rect .. => True
  | .flip_normals ptr => ptr.unit_rotations
  | .translate ptr _ => ptr.unit_rotations
  | .rotate_y ptr sin_theta cos_theta _ _ =>
      ptr.unit_rotations ∧ sin_theta ^ 2 + cos_theta ^ 2 = 1
  | .other _ _ => True

/-- The integer nearest to `y`, the even one of the two when `y` lies halfway. -/
def round_half_even (y : ℚ) : ℤ :=
  if y - ⌊y⌋ < 1 / 2 then ⌊y⌋
  else if 1 / 2 < y - ⌊y⌋ then ⌊y⌋ + 1
  else if ⌊y⌋ % 2 = 0 then ⌊y⌋ else ⌊y⌋ + 1

/-- The number of the binary floating-point format with `p` fraction bits that is
nearest to `x`, ties to even (the IEEE 754 default rounding); the exponent
range is not bounded. -/
def round_binary (p : ℕ) (x : ℚ) : ℚ :=
  let e : ℤ := Int.log 2 |x| - p
  (round_half_even (x / 2 ^ e) : ℚ) * 2 ^ e

/-- The `double` nearest to `x`: the value of a `double` literal or operation
with exact result `x`. -/
def to_double (x : ℚ) : ℚ := round_binary 52 x

/-- The `float` nearest to `x`: the conversion of a `double` to `float`. -/
def to_float (x : ℚ) : ℚ := round_binary 23 x

/-- Function `xy_rect::bounding_box` with the conversions of its arithmetic
written out: `0.0001` is a `double` literal, `k - 0.0001` and `k + 0.0001` are
computed in `double` from the `float` member `k`, and the components of the
corners are stored as `float`.  The members `x0`, `x1`, `y0`, `y1`, `k` are
`float` values already. -/
def xy_rect_bounding_box_float (x0 x1 y0 y1 k : ℚ) (_t0 _t1 : ℚ) (_box : aabb ℚ) :
    Bool × aabb ℚ :=
  (true, ⟨⟨x0, y0, to_float (to_double (k - to_double 0.0001))⟩,
          ⟨x1, y1, to_float (to_double (k + to_double 0.0001))⟩⟩)

end Definitions

section Theorems

variable {K : Type} [LinearOrderedField K]

/-! ## Arithmetic of `float` values -/

namespace float

@[simp] theorem fin_add_fin (a b : K) : (fin a + fin b : float K) = fin (a + b) := rfl

@[simp] theorem fin_mul_fin (a b : K) : (fin a * fin b : float K) = fin (a * b) := rfl

@[simp] theorem neg_fin (a : K) : (-(fin a) : float K) = fin (-a) := rfl

@[simp] theorem fin_sub_fin (a b : K) : (fin a - fin b : float K) = fin (a - b) := by
  show add (fin a) (neg (fin b)) = fin (a - b)
  simp [add, neg, sub_eq_add_neg]

theorem fin_div_fin (a b : K) (hb : b ≠ 0) : (fin a / fin b : float K) = fin (a / b) := by
  show div (fin a) (fin b) = fin (a / b)
  simp [div, hb]

@[simp] theorem fin_div_fin_eq (a b : K) :
    (fin a / fin b : float K) = if b = 0 then inf_times a else fin (a / b) := rfl

@[simp] theorem nan_add (a : float K) : (nan + a : float K) = nan := by
  cases a <;> rfl

@[simp] theorem add_nan (a : float K) : (a + nan : float K) = nan := by
  cases a <;> rfl

@[simp] theorem nan_mul (a : float K) : (nan * a : float K) = nan := by
  cases a <;> rfl

@[simp] theorem mul_nan (a : float K) : (a * nan : float K) = nan := by
  cases a <;> rfl

@[simp] theorem neg_nan : (-(nan) : float K) = nan := rfl

@[simp] theorem nan_sub (a : float K) : (nan - a : float K) = nan := by
  cases a <;> rfl

@[simp] theorem sub_nan (a : float K) : (a - nan : float K) = nan := by
  cases a <;> rfl

@[simp] theorem nan_div (a : float K) : (nan / a : float K) = nan := by
  cases a <;> rfl

@[simp] theorem div_nan (a : float K) : (a / nan : float K) = nan := by
  cases a <;> rfl

@[simp] theorem neg_neg_eq (a : float K) : (-(-a) : float K) = a := by
  cases a with
  | fin x => show fin (-(-x)) = fin x; rw [neg_neg]
  | pinf => rfl
  | ninf => rfl
  | nan => rfl

@[simp] theorem fin_lt_fin (a b : K) : (fin a < fin b) ↔ a < b := by
  show lt (fin a) (fin b) = true ↔ a < b
  simp [lt]

@[simp] theorem fin_le_fin (a b : K) : (fin a ≤ fin b) ↔ a ≤ b := by
  show le (fin a) (fin b) = true ↔ a ≤ b
  simp [le]

@[simp] theorem not_nan_lt (a : float K) : ¬ (nan < a) := by
  show ¬ (lt nan a = true)
  simp [lt]

@[simp] theorem not_lt_nan (a : float K) : ¬ (a < nan) := by
  show ¬ (lt a nan = true)
  cases a <;> simp [lt]

@[simp] theorem not_nan_le (a : float K) : ¬ (nan ≤ a) := by
  show ¬ (le nan a = true)
  simp [le]

@[simp] theorem not_le_nan (a : float K) : ¬ (a ≤ nan) := by
  show ¬ (le a nan = true)
  cases a <;> simp [le]

@[simp] theorem pinf_gt_fin (a : K) : (fin a < (pinf : float K)) := by
  show lt (fin a) pinf = true
  rfl

@[simp] theorem ninf_lt_fin (a : K) : ((ninf : float K) < fin a) := by
  show lt ninf (fin a) = true
  rfl

end float

/-! ## The rectangles -/

/-- The outcome of `xy_rect::hit` for a ray that is not parallel to the plane. -/
theorem xy_rect_hit_true_iff (x0 x1 y0 y1 k : K) (mp : material_ptr) (r : ray K) (t0 t1 : K)
    (rec : hit_record K) (hd : r.direction.z ≠ 0) :
    (xy_rect_hit x0 x1 y0 y1 k mp r t0 t1 rec).1 = true ↔
      (t0 ≤ (k - r.origin.z) / r.direction.z ∧ (k - r.origin.z) / r.direction.z ≤ t1) ∧
      (x0 ≤ r.origin.x + (k - r.origin.z) / r.direction.z * r.direction.x ∧
        r.origin.x + (k - r.origin.z) / r.direction.z * r.direction.x ≤ x1) ∧
      (y0 ≤ r.origin.y + (k - r.origin.z) / r.direction.z * r.direction.y ∧
        r.origin.y + (k - r.origin.z) / r.direction.z * r.direction.y ≤ y1) := by
  simp only [xy_rect_hit, float.fin_sub_fin, float.fin_div_fin _ _ hd, float.fin_mul_fin,
    float.fin_add_fin, gt_iff_lt, float.fin_lt_fin]
  split_ifs with h1 h2
  · simp only [Bool.false_eq_true, false_iff]
    rintro ⟨⟨ha, hb⟩, -, -⟩
    rcases h1 with h | h
    · exact absurd ha (not_le.mpr h)
    · exact absurd hb (not_le.mpr h)
  · simp only [Bool.false_eq_true, false_iff]
    rintro ⟨-, ⟨ha, hb⟩, hc, hd⟩
    rcases h2 with h | h | h | h
    · exact absurd ha (not_le.mpr h)
    · exact absurd hb (not_le.mpr h)
    · exact absurd hc (not_le.mpr h)
    · exact absurd hd (not_le.mpr h)
  · simp only [not_or, not_lt] at h1 h2
    simp only [true_iff]
    exact ⟨h1, ⟨h2.1, h2.2.1⟩, h2.2.2⟩

/-- The outcome of `xz_rect::hit` for a ray that is not parallel to the plane. -/
theorem xz_rect_hit_true_iff (x0 x1 z0 z1 k : K) (mp : material_ptr) (r : ray K) (t0 t1 : K)
    (rec : hit_record K) (hd : r.direction.y ≠ 0) :
    (xz_rect_hit x0 x1 z0 z1 k mp r t0 t1 rec).1 = true ↔
      (t0 ≤ (k - r.origin.y) / r.direction.y ∧ (k - r.origin.y) / r.direction.y ≤ t1) ∧
      (x0 ≤ r.origin.x + (k - r.origin.y) / r.direction.y * r.direction.x ∧
        r.origin.x + (k - r.origin.y) / r.direction.y * r.direction.x ≤ x1) ∧
      (z0 ≤ r.origin.z + (k - r.origin.y) / r.direction.y * r.direction.z ∧
        r.origin.z + (k - r.origin.y) / r.direction.y * r.direction.z ≤ z1) := by
  simp only [xz_rect_hit, float.fin_sub_fin, float.fin_div_fin _ _ hd, float.fin_mul_fin,
    float.fin_add_fin, gt_iff_lt, float.fin_lt_fin]
  split_ifs with h1 h2
  · simp only [Bool.false_eq_true, false_iff]
    rintro ⟨⟨ha, hb⟩, -, -⟩
    rcases h1 with h | h
    · exact absurd ha (not_le.mpr h)
    · exact absurd hb (not_le.mpr h)
  · simp only [Bool.false_eq_true, false_iff]
    rintro ⟨-, ⟨ha, hb⟩, hc, hd⟩
    rcases h2 with h | h | h | h
    · exact absurd ha (not_le.mpr h)
    · exact absurd hb (not_le.mpr h)
    · exact absurd hc (not_le.mpr h)
    · exact absurd hd (not_le.mpr h)
  · simp only [not_or, not_lt] at h1 h2
    simp only [true_iff]
    exact ⟨h1, ⟨h2.1, h2.2.1⟩, h2.2.2⟩

/-- The outcome of `yz_rect::hit` for a ray that is not parallel to the plane. -/
theorem yz_rect_hit_true_iff (y0 y1 z0 z1 k : K) (mp : material_ptr) (r : ray K) (t0 t1 : K)
    (rec : hit_record K) (hd : r.direction.x ≠ 0) :
    (yz_rect_hit y0 y1 z0 z1 k mp r t0 t1 rec).1 = true ↔
      (t0 ≤ (k - r.origin.x) / r.direction.x ∧ (k - r.origin.x) / r.direction.x ≤ t1) ∧
      (y0 ≤ r.origin.y + (k - r.origin.x) / r.direction.x * r.direction.y ∧
        r.origin.y + (k - r.origin.x) / r.direction.x * r.direction.y ≤ y1) ∧
      (z0 ≤ r.origin.z + (k - r.origin.x) / r.direction.x * r.direction.z ∧
        r.origin.z + (k - r.origin.x) / r.direction.x * r.direction.z ≤ z1) := by
  simp only [yz_rect_hit, float.fin_sub_fin, float.fin_div_fin _ _ hd, float.fin_mul_fin,
    float.fin_add_fin, gt_iff_lt, float.fin_lt_fin]
  split_ifs with h1 h2
  · simp only [Bool.false_eq_true, false_iff]
    rintro ⟨⟨ha, hb⟩, -, -⟩
    rcases h1 with h | h
    · exact absurd ha (not_le.mpr h)
    · exact absurd hb (not_le.mpr h)
  · simp only [Bool.false_eq_true, false_iff]
    rintro ⟨-, ⟨ha, hb⟩, hc, hd⟩
    rcases h2 with h | h | h | h
    · exact absurd ha (not_le.mpr h)
    · exact absurd hb (not_le.mpr h)
    · exact absurd hc (not_le.mpr h)
    · exact absurd hd (not_le.mpr h)
  · simp only [not_or, not_lt] at h1 h2
    simp only [true_iff]
    exact ⟨h1, ⟨h2.1, h2.2.1⟩, h2.2.2⟩

/-- Claim C1: for each of the three rectangles, each interval `[t0,t1]` and
each ray whose direction component along the rectangle's plane axis is nonzero,
`hit` succeeds if and only if `t = (k - origin_axis) / direction_axis` lies in
`[t0,t1]` and both in-plane coordinates of `origin + t * direction` lie in the
rectangle's closed extents. -/
theorem rect_hit_iff_analytic (a0 a1 b0 b1 k : K) (mp : material_ptr) (r : ray K) (t0 t1 : K)
    (rec : hit_record K) :
    (r.direction.z ≠ 0 →
      (((hitable.xy_rect a0 a1 b0 b1 k mp).hit r t0 t1 rec).1 = true ↔
        (t0 ≤ (k - r.origin.z) / r.direction.z ∧ (k - r.origin.z) / r.direction.z ≤ t1) ∧
        (a0 ≤ r.origin.x + (k - r.origin.z) / r.direction.z * r.direction.x ∧
          r.origin.x + (k - r.origin.z) / r.direction.z * r.direction.x ≤ a1) ∧
        (b0 ≤ r.origin.y + (k - r.origin.z) / r.direction.z * r.direction.y ∧
          r.origin.y + (k - r.origin.z) / r.direction.z * r.direction.y ≤ b1))) ∧
    (r.direction.y ≠ 0 →
      (((hitable.xz_rect a0 a1 b0 b1 k mp).hit r t0 t1 rec).1 = true ↔
        (t0 ≤ (k - r.origin.y) / r.direction.y ∧ (k - r.origin.y) / r.direction.y ≤ t1) ∧
        (a0 ≤ r.origin.x + (k - r.origin.y) / r.direction.y * r.direction.x ∧
          r.origin.x + (k - r.origin.y) / r.direction.y * r.direction.x ≤ a1) ∧
        (b0 ≤ r.origin.z + (k - r.origin.y) / r.direction.y * r.direction.z ∧
          r.origin.z + (k - r.origin.y) / r.direction.y * r.direction.z ≤ b1))) ∧
    (r.direction.x ≠ 0 →
      (((hitable.yz_rect a0 a1 b0 b1 k mp).hit r t0 t1 rec).1 = true ↔
        (t0 ≤ (k - r.origin.x) / r.direction.x ∧ (k - r.origin.x) / r.direction.x ≤ t1) ∧
        (a0 ≤ r.origin.y + (k - r.origin.x) / r.direction.x * r.direction.y ∧
          r.origin.y + (k - r.origin.x) / r.direction.x * r.direction.y ≤ a1) ∧
        (b0 ≤ r.origin.z + (k - r.origin.x) / r.direction.x * r.direction.z ∧
          r.origin.z + (k - r.origin.x) / r.direction.x * r.direction.z ≤ b1))) :=
  ⟨fun hd => xy_rect_hit_true_iff a0 a1 b0 b1 k mp r t0 t1 rec hd,
   fun hd => xz_rect_hit_true_iff a0 a1 b0 b1 k mp r t0 t1 rec hd,
   fun hd => yz_rect_hit_true_iff a0 a1 b0 b1 k mp r t0 t1 rec hd⟩

theorem rect_hit_iff_analytic_witness :
    ((hitable.xy_rect (1 : ℚ) 3 1 3 2 7).hit ⟨⟨0, 0, 0⟩, ⟨1, 1, 1⟩, 0⟩ 0 100
        ⟨.nan, .nan, .nan, ⟨.nan, .nan, .nan⟩, ⟨.nan, .nan, .nan⟩, 0⟩).1 = true ∧
    ((hitable.xz_rect (1 : ℚ) 3 1 3 2 7).hit ⟨⟨0, 0, 0⟩, ⟨1, 1, 1⟩, 0⟩ 0 100
        ⟨.nan, .nan, .nan, ⟨.nan, .nan, .nan⟩, ⟨.nan, .nan, .nan⟩, 0⟩).1 = true ∧
    ((hitable.yz_rect (1 : ℚ) 3 1 3 2 7).hit ⟨⟨0, 0, 0⟩, ⟨1, 1, 1⟩, 0⟩ 0 100
        ⟨.nan, .nan, .nan, ⟨.nan, .nan, .nan⟩, ⟨.nan, .nan, .nan⟩, 0⟩).1 = true :=
  have h := rect_hit_iff_analytic (1 : ℚ) 3 1 3 2 7 ⟨⟨0, 0, 0⟩, ⟨1, 1, 1⟩, 0⟩ 0 100
    ⟨.nan, .nan, .nan, ⟨.nan, .nan, .nan⟩, ⟨.nan, .nan, .nan⟩, 0⟩
  ⟨(h.1 (by norm_num [ray.direction])).mpr (by norm_num [ray.direction, ray.origin]),
   (h.2.1 (by norm_num [ray.direction])).mpr (by norm_num [ray.direction, ray.origin]),
   (h.2.2 (by norm_num [ray.direction])).mpr (by norm_num [ray.direction, ray.origin])⟩

/-! ## Unfolding of the vector operations and of the dispatch -/

theorem vec3_add_def {α : Type} [Add α] (a b : vec3 α) :
    a + b = ⟨a.x + b.x, a.y + b.y, a.z + b.z⟩ := rfl

theorem vec3_sub_def {α : Type} [Sub α] (a b : vec3 α) :
    a - b = ⟨a.x - b.x, a.y - b.y, a.z - b.z⟩ := rfl

theorem vec3_neg_def {α : Type} [Neg α] (a : vec3 α) : -a = ⟨-a.x, -a.y, -a.z⟩ := rfl

theorem hit_xy_rect (x0 x1 y0 y1 k : K) (mp : material_ptr) (r : ray K) (t0 t1 : K)
    (rec : hit_record K) :
    (hitable.xy_rect x0 x1 y0 y1 k mp).hit r t0 t1 rec = xy_rect_hit x0 x1 y0 y1 k mp r t0 t1 rec := by
  rw [hitable.hit]

theorem hit_xz_rect (x0 x1 z0 z1 k : K) (mp : material_ptr) (r : ray K) (t0 t1 : K)
    (rec : hit_record K) :
    (hitable.xz_rect x0 x1 z0 z1 k mp).hit r t0 t1 rec = xz_rect_hit x0 x1 z0 z1 k mp r t0 t1 rec := by
  rw [hitable.hit]

theorem hit_yz_rect (y0 y1 z0 z1 k : K) (mp : material_ptr) (r : ray K) (t0 t1 : K)
    (rec : hit_record K) :
    (hitable.yz_rect y0 y1 z0 z1 k mp).hit r t0 t1 rec = yz_rect_hit y0 y1 z0 z1 k mp r t0 t1 rec := by
  rw [hitable.hit]

/-! ## Unfolding of the decorators -/

theorem hit_flip_normals (ptr : hitable K) (r : ray K) (t_min t_max : K) (rec : hit_record K) :
    (hitable.flip_normals ptr).hit r t_min t_max rec =
      if (ptr.hit r t_min t_max rec).1 = true then
        (true, { (ptr.hit r t_min t_max rec).2 with
                  normal := -(ptr.hit r t_min t_max rec).2.normal })
      else (false, (ptr.hit r t_min t_max rec).2) := by
  rw [hitable.hit]
  rcases ptr.hit r t_min t_max rec with ⟨b, rec1⟩
  cases b <;> simp

theorem hit_translate (ptr : hitable K) (offset : vec3 K) (r : ray K) (t_min t_max : K)
    (rec : hit_record K) :
    (hitable.translate ptr offset).hit r t_min t_max rec =
      if (ptr.hit (translate_moved_r offset r) t_min t_max rec).1 = true then
        (true, { (ptr.hit (translate_moved_r offset r) t_min t_max rec).2 with
                  p := (ptr.hit (translate_moved_r offset r) t_min t_max rec).2.p + offset.lift })
      else (false, (ptr.hit (translate_moved_r offset r) t_min t_max rec).2) := by
  rw [hitable.hit]
  rcases ptr.hit (translate_moved_r offset r) t_min t_max rec with ⟨b, rec1⟩
  cases b <;> simp

theorem hit_rotate_y (ptr : hitable K) (sin_theta cos_theta : K) (hasbox : Bool) (bbox : aabb K)
    (r : ray K) (t_min t_max : K) (rec : hit_record K) :
    (hitable.rotate_y ptr sin_theta cos_theta hasbox bbox).hit r t_min t_max rec =
      if (ptr.hit (rotate_y_rotated_r sin_theta cos_theta r) t_min t_max rec).1 = true then
        (true, rotate_y_back sin_theta cos_theta
          (ptr.hit (rotate_y_rotated_r sin_theta cos_theta r) t_min t_max rec).2)
      else (false, (ptr.hit (rotate_y_rotated_r sin_theta cos_theta r) t_min t_max rec).2) := by
  rw [hitable.hit]
  rcases ptr.hit (rotate_y_rotated_r sin_theta cos_theta r) t_min t_max rec with ⟨b, rec1⟩
  cases b <;> simp

theorem bounding_box_translate (ptr : hitable K) (offset : vec3 K) (t0 t1 : K) (box : aabb K) :
    (hitable.translate ptr offset).bounding_box t0 t1 box =
      if (ptr.bounding_box t0 t1 box).1 = true then
        (true, ⟨(ptr.bounding_box t0 t1 box).2.min + offset,
                (ptr.bounding_box t0 t1 box).2.max + offset⟩)
      else (false, (ptr.bounding_box t0 t1 box).2) := by
  rw [hitable.bounding_box]
  rcases ptr.bounding_box t0 t1 box with ⟨b, box1⟩
  cases b <;> simp

/-! ## Frame properties of `hit` -/

theorem xy_rect_hit_false (x0 x1 y0 y1 k : K) (mp : material_ptr) (r : ray K) (t0 t1 : K)
    (rec : hit_record K) (hf : (xy_rect_hit x0 x1 y0 y1 k mp r t0 t1 rec).1 = false) :
    (xy_rect_hit x0 x1 y0 y1 k mp r t0 t1 rec).2 = rec := by
  unfold xy_rect_hit at hf ⊢
  dsimp only at hf ⊢
  split_ifs at hf ⊢ <;> rfl

theorem xz_rect_hit_false (x0 x1 z0 z1 k : K) (mp : material_ptr) (r : ray K) (t0 t1 : K)
    (rec : hit_record K) (hf : (xz_rect_hit x0 x1 z0 z1 k mp r t0 t1 rec).1 = false) :
    (xz_rect_hit x0 x1 z0 z1 k mp r t0 t1 rec).2 = rec := by
  unfold xz_rect_hit at hf ⊢
  dsimp only at hf ⊢
  split_ifs at hf ⊢ <;> rfl

theorem yz_rect_hit_false (y0 y1 z0 z1 k : K) (mp : material_ptr) (r : ray K) (t0 t1 : K)
    (rec : hit_record K) (hf : (yz_rect_hit y0 y1 z0 z1 k mp r t0 t1 rec).1 = false) :
    (yz_rect_hit y0 y1 z0 z1 k mp r t0 t1 rec).2 = rec := by
  unfold yz_rect_hit at hf ⊢
  dsimp only at hf ⊢
  split_ifs at hf ⊢ <;> rfl

/-- Claim C3: for every object built from the rectangles by nesting
`flip_normals`, `translate` and `rotate_y`, every ray, interval and initial
record, a failed `hit` leaves the record equal to the record before the call
(all six fields). -/
theorem hit_failure_leaves_record (H : hitable K) (hH : H.from_rects) (r : ray K)
    (t_min t_max : K) (rec : hit_record K) (hf : (H.hit r t_min t_max rec).1 = false) :
    (H.hit r t_min t_max rec).2 = rec := by
  induction H generalizing r with
  | xy_rect x0 x1 y0 y1 k mp => exact xy_rect_hit_false x0 x1 y0 y1 k mp r t_min t_max rec hf
  | xz_rect x0 x1 z0 z1 k mp => exact xz_rect_hit_false x0 x1 z0 z1 k mp r t_min t_max rec hf
  | yz_rect y0 y1 z0 z1 k mp => exact yz_rect_hit_false y0 y1 z0 z1 k mp r t_min t_max rec hf
  | flip_normals ptr ih =>
      rw [hit_flip_normals] at hf ⊢
      by_cases h : (ptr.hit r t_min t_max rec).1 = true
      · simp [h] at hf
      · rw [if_neg h]
        exact ih hH r (by simpa using h)
  | translate ptr offset ih =>
      rw [hit_translate] at hf ⊢
      by_cases h : (ptr.hit (translate_moved_r offset r) t_min t_max rec).1 = true
      · simp [h] at hf
      · rw [if_neg h]
        exact ih hH _ (by simpa using h)
  | rotate_y ptr s c hasbox bbox ih =>
      rw [hit_rotate_y] at hf ⊢
      by_cases h : (ptr.hit (rotate_y_rotated_r s c r) t_min t_max rec).1 = true
      · simp [h] at hf
      · rw [if_neg h]
        exact ih hH _ (by simpa using h)
  | other hit bb => exact absurd hH (by simp [hitable.from_rects])

theorem hit_failure_leaves_record_witness :
    ((hitable.xy_rect (3 : ℚ) 5 1 3 2 7).hit ⟨⟨10, 2, 0⟩, ⟨0, 0, 1⟩, 0⟩ 0 100
        ⟨.fin 11, .fin 12, .fin 13, ⟨.fin 14, .fin 15, .fin 16⟩,
          ⟨.fin 17, .fin 18, .fin 19⟩, 20⟩).1 = false ∧
    ((hitable.xy_rect (3 : ℚ) 5 1 3 2 7).hit ⟨⟨10, 2, 0⟩, ⟨0, 0, 1⟩, 0⟩ 0 100
        ⟨.fin 11, .fin 12, .fin 13, ⟨.fin 14, .fin 15, .fin 16⟩,
          ⟨.fin 17, .fin 18, .fin 19⟩, 20⟩).2 =
      ⟨.fin 11, .fin 12, .fin 13, ⟨.fin 14, .fin 15, .fin 16⟩, ⟨.fin 17, .fin 18, .fin 19⟩, 20⟩ :=
  have hf : ((hitable.xy_rect (3 : ℚ) 5 1 3 2 7).hit ⟨⟨10, 2, 0⟩, ⟨0, 0, 1⟩, 0⟩ 0 100
        ⟨.fin 11, .fin 12, .fin 13, ⟨.fin 14, .fin 15, .fin 16⟩,
          ⟨.fin 17, .fin 18, .fin 19⟩, 20⟩).1 = false := by
    simp [hitable.hit, xy_rect_hit, ray.origin, ray.direction]
    norm_num
  ⟨hf, hit_failure_leaves_record _ (by simp [hitable.from_rects]) _ _ _ _ hf⟩

/-! ## The result of the rectangles' `hit` in closed form -/

/-- The result of `xy_rect::hit` for a ray that is not parallel to the plane, in
numbers. -/
theorem xy_rect_hit_of_ne_zero (a0 a1 b0 b1 k : K) (mp : material_ptr) (r : ray K) (t0 t1 : K)
    (rec : hit_record K) (hd : r.direction.z ≠ 0) :
    xy_rect_hit a0 a1 b0 b1 k mp r t0 t1 rec =
      if (k - r.origin.z) / r.direction.z < t0 ∨ t1 < (k - r.origin.z) / r.direction.z then
        (false, rec)
      else if r.origin.x + (k - r.origin.z) / r.direction.z * r.direction.x < a0 ∨
          a1 < r.origin.x + (k - r.origin.z) / r.direction.z * r.direction.x ∨
          r.origin.y + (k - r.origin.z) / r.direction.z * r.direction.y < b0 ∨
          b1 < r.origin.y + (k - r.origin.z) / r.direction.z * r.direction.y then
        (false, rec)
      else
        (true,
          { u := float.fin (r.origin.x + (k - r.origin.z) / r.direction.z * r.direction.x - a0)
                  / float.fin (a1 - a0)
            v := float.fin (r.origin.y + (k - r.origin.z) / r.direction.z * r.direction.y - b0)
                  / float.fin (b1 - b0)
            t := float.fin ((k - r.origin.z) / r.direction.z)
            mat_ptr := mp
            p := ⟨float.fin (r.origin.x + (k - r.origin.z) / r.direction.z * r.direction.x),
                  float.fin (r.origin.y + (k - r.origin.z) / r.direction.z * r.direction.y),
                  float.fin (r.origin.z + (k - r.origin.z) / r.direction.z * r.direction.z)⟩
            normal := ⟨float.fin 0, float.fin 0, float.fin 1⟩ }) := by
  simp only [xy_rect_hit, ray.point_at_parameter, float.fin_sub_fin, float.fin_div_fin _ _ hd,
    float.fin_mul_fin, float.fin_add_fin, gt_iff_lt, float.fin_lt_fin]
  rfl

/-- The result of `xy_rect::hit` for a ray parallel to the plane: a failure
when the origin is off the plane (`t` is an infinity), a success with NaN in
`t`, `u`, `v` and `p` when the origin is on the plane (`t` is NaN and passes
every comparison). -/
theorem xy_rect_hit_of_eq_zero (a0 a1 b0 b1 k : K) (mp : material_ptr) (r : ray K) (t0 t1 : K)
    (rec : hit_record K) (hd : r.direction.z = 0) :
    xy_rect_hit a0 a1 b0 b1 k mp r t0 t1 rec =
      if k = r.origin.z then
        (true,
          { u := float.nan
            v := float.nan
            t := float.nan
            mat_ptr := mp
            p := ⟨float.nan, float.nan, float.nan⟩
            normal := ⟨float.fin 0, float.fin 0, float.fin 1⟩ })
      else (false, rec) := by
  rcases lt_trichotomy (k - r.origin.z) 0 with h | h | h
  · have hk : k ≠ r.origin.z := fun e => by rw [e, sub_self] at h; exact lt_irrefl _ h
    have hn : ¬ (0 < k - r.origin.z) := not_lt.mpr h.le
    have ht : ((float.ninf : float K) < float.fin t0) := float.ninf_lt_fin t0
    simp [xy_rect_hit, hd, float.inf_times, hk, h, hn, ht]
  · have hk : k = r.origin.z := sub_eq_zero.mp h
    simp [xy_rect_hit, ray.point_at_parameter, hd, float.inf_times, hk]
  · have hk : k ≠ r.origin.z := fun e => by rw [e, sub_self] at h; exact lt_irrefl _ h
    have ht : (float.fin t1 < (float.pinf : float K)) := float.pinf_gt_fin t1
    simp [xy_rect_hit, hd, float.inf_times, hk, h, ht]

/-- The result of `xz_rect::hit` for a ray that is not parallel to the plane, in
numbers. -/
theorem xz_rect_hit_of_ne_zero (a0 a1 b0 b1 k : K) (mp : material_ptr) (r : ray K) (t0 t1 : K)
    (rec : hit_record K) (hd : r.direction.y ≠ 0) :
    xz_rect_hit a0 a1 b0 b1 k mp r t0 t1 rec =
      if (k - r.origin.y) / r.direction.y < t0 ∨ t1 < (k - r.origin.y) / r.direction.y then
        (false, rec)
      else if r.origin.x + (k - r.origin.y) / r.direction.y * r.direction.x < a0 ∨
          a1 < r.origin.x + (k - r.origin.y) / r.direction.y * r.direction.x ∨
          r.origin.z + (k - r.origin.y) / r.direction.y * r.direction.z < b0 ∨
          b1 < r.origin.z + (k - r.origin.y) / r.direction.y * r.direction.z then
        (false, rec)
      else
        (true,
          { u := float.fin (r.origin.x + (k - r.origin.y) / r.direction.y * r.direction.x - a0)
                  / float.fin (a1 - a0)
            v := float.fin (r.origin.z + (k - r.origin.y) / r.direction.y * r.direction.z - b0)
                  / float.fin (b1 - b0)
            t := float.fin ((k - r.origin.y) / r.direction.y)
            mat_ptr := mp
            p := ⟨float.fin (r.origin.x + (k - r.origin.y) / r.direction.y * r.direction.x),
                  float.fin (r.origin.y + (k - r.origin.y) / r.direction.y * r.direction.y),
                  float.fin (r.origin.z + (k - r.origin.y) / r.direction.y * r.direction.z)⟩
            normal := ⟨float.fin 0, float.fin 1, float.fin 0⟩ }) := by
  simp only [xz_rect_hit, ray.point_at_parameter, float.fin_sub_fin, float.fin_div_fin _ _ hd,
    float.fin_mul_fin, float.fin_add_fin, gt_iff_lt, float.fin_lt_fin]
  rfl

/-- The result of `xz_rect::hit` for a ray parallel to the plane: a failure
when the origin is off the plane (`t` is an infinity), a success with NaN in
`t`, `u`, `v` and `p` when the origin is on the plane (`t` is NaN and passes
every comparison). -/
theorem xz_rect_hit_of_eq_zero (a0 a1 b0 b1 k : K) (mp : material_ptr) (r : ray K) (t0 t1 : K)
    (rec : hit_record K) (hd : r.direction.y = 0) :
    xz_rect_hit a0 a1 b0 b1 k mp r t0 t1 rec =
      if k = r.origin.y then
        (true,
          { u := float.nan
            v := float.nan
            t := float.nan
            mat_ptr := mp
            p := ⟨float.nan, float.nan, float.nan⟩
            normal := ⟨float.fin 0, float.fin 1, float.fin 0⟩ })
      else (false, rec) := by
  rcases lt_trichotomy (k - r.origin.y) 0 with h | h | h
  · have hk : k ≠ r.origin.y := fun e => by rw [e, sub_self] at h; exact lt_irrefl _ h
    have hn : ¬ (0 < k - r.origin.y) := not_lt.mpr h.le
    have ht : ((float.ninf : float K) < float.fin t0) := float.ninf_lt_fin t0
    simp [xz_rect_hit, hd, float.inf_times, hk, h, hn, ht]
  · have hk : k = r.origin.y := sub_eq_zero.mp h
    simp [xz_rect_hit, ray.point_at_parameter, hd, float.inf_times, hk]
  · have hk : k ≠ r.origin.y := fun e => by rw [e, sub_self] at h; exact lt_irrefl _ h
    have ht : (float.fin t1 < (float.pinf : float K)) := float.pinf_gt_fin t1
    simp [xz_rect_hit, hd, float.inf_times, hk, h, ht]

/-- The result of `yz_rect::hit` for a ray that is not parallel to the plane, in
numbers. -/
theorem yz_rect_hit_of_ne_zero (a0 a1 b0 b1 k : K) (mp : material_ptr) (r : ray K) (t0 t1 : K)
    (rec : hit_record K) (hd : r.direction.x ≠ 0) :
    yz_rect_hit a0 a1 b0 b1 k mp r t0 t1 rec =
      if (k - r.origin.x) / r.direction.x < t0 ∨ t1 < (k - r.origin.x) / r.direction.x then
        (false, rec)
      else if r.origin.y + (k - r.origin.x) / r.direction.x * r.direction.y < a0 ∨
          a1 < r.origin.y + (k - r.origin.x) / r.direction.x * r.direction.y ∨
          r.origin.z + (k - r.origin.x) / r.direction.x * r.direction.z < b0 ∨
          b1 < r.origin.z + (k - r.origin.x) / r.direction.x * r.direction.z then
        (false, rec)
      else
        (true,
          { u := float.fin (r.origin.y + (k - r.origin.x) / r.direction.x * r.direction.y - a0)
                  / float.fin (a1 - a0)
            v := float.fin (r.origin.z + (k - r.origin.x) / r.direction.x * r.direction.z - b0)
                  / float.fin (b1 - b0)
            t := float.fin ((k - r.origin.x) / r.direction.x)
            mat_ptr := mp
            p := ⟨float.fin (r.origin.x + (k - r.origin.x) / r.direction.x * r.direction.x),
                  float.fin (r.origin.y + (k - r.origin.x) / r.direction.x * r.direction.y),
                  float.fin (r.origin.z + (k - r.origin.x) / r.direction.x * r.direction.z)⟩
            normal := ⟨float.fin 1, float.fin 0, float.fin 0⟩ }) := by
  simp only [yz_rect_hit, ray.point_at_parameter, float.fin_sub_fin, float.fin_div_fin _ _ hd,
    float.fin_mul_fin, float.fin_add_fin, gt_iff_lt, float.fin_lt_fin]
  rfl

/-- The result of `yz_rect::hit` for a ray parallel to the plane: a failure
when the origin is off the plane (`t` is an infinity), a success with NaN in
`t`, `u`, `v` and `p` when the origin is on the plane (`t` is NaN and passes
every comparison). -/
theorem yz_rect_hit_of_eq_zero (a0 a1 b0 b1 k : K) (mp : material_ptr) (r : ray K) (t0 t1 : K)
    (rec : hit_record K) (hd : r.direction.x = 0) :
    yz_rect_hit a0 a1 b0 b1 k mp r t0 t1 rec =
      if k = r.origin.x then
        (true,
          { u := float.nan
            v := float.nan
            t := float.nan
            mat_ptr := mp
            p := ⟨float.nan, float.nan, float.nan⟩
            normal := ⟨float.fin 1, float.fin 0, float.fin 0⟩ })
      else (false, rec) := by
  rcases lt_trichotomy (k - r.origin.x) 0 with h | h | h
  · have hk : k ≠ r.origin.x := fun e => by rw [e, sub_self] at h; exact lt_irrefl _ h
    have hn : ¬ (0 < k - r.origin.x) := not_lt.mpr h.le
    have ht : ((float.ninf : float K) < float.fin t0) := float.ninf_lt_fin t0
    simp [yz_rect_hit, hd, float.inf_times, hk, h, hn, ht]
  · have hk : k = r.origin.x := sub_eq_zero.mp h
    simp [yz_rect_hit, ray.point_at_parameter, hd, float.inf_times, hk]
  · have hk : k ≠ r.origin.x := fun e => by rw [e, sub_self] at h; exact lt_irrefl _ h
    have ht : (float.fin t1 < (float.pinf : float K)) := float.pinf_gt_fin t1
    simp [yz_rect_hit, hd, float.inf_times, hk, h, ht]

/-! ## What a successful `hit` of a rectangle writes -/

theorem xy_rect_hit_indep (a0 a1 b0 b1 k : K) (mp : material_ptr) (r : ray K) (t0 t1 : K)
    (rec1 rec2 : hit_record K) :
    (xy_rect_hit a0 a1 b0 b1 k mp r t0 t1 rec1).1 = (xy_rect_hit a0 a1 b0 b1 k mp r t0 t1 rec2).1 ∧
    ((xy_rect_hit a0 a1 b0 b1 k mp r t0 t1 rec1).1 = true →
      (xy_rect_hit a0 a1 b0 b1 k mp r t0 t1 rec1).2 =
        (xy_rect_hit a0 a1 b0 b1 k mp r t0 t1 rec2).2) := by
  by_cases hd : r.direction.z = 0
  · rw [xy_rect_hit_of_eq_zero _ _ _ _ _ _ _ _ _ rec1 hd,
      xy_rect_hit_of_eq_zero _ _ _ _ _ _ _ _ _ rec2 hd]
    split_ifs <;> simp
  · rw [xy_rect_hit_of_ne_zero _ _ _ _ _ _ _ _ _ rec1 hd,
      xy_rect_hit_of_ne_zero _ _ _ _ _ _ _ _ _ rec2 hd]
    split_ifs <;> simp

theorem xy_rect_hit_fields (a0 a1 b0 b1 k : K) (mp : material_ptr) (r : ray K) (t0 t1 : K)
    (rec : hit_record K) (hs : (xy_rect_hit a0 a1 b0 b1 k mp r t0 t1 rec).1 = true) :
    (xy_rect_hit a0 a1 b0 b1 k mp r t0 t1 rec).2.t =
        (float.fin k - float.fin r.origin.z) / float.fin r.direction.z ∧
    (xy_rect_hit a0 a1 b0 b1 k mp r t0 t1 rec).2.p =
        ⟨float.fin r.origin.x + (xy_rect_hit a0 a1 b0 b1 k mp r t0 t1 rec).2.t * float.fin r.direction.x,
         float.fin r.origin.y + (xy_rect_hit a0 a1 b0 b1 k mp r t0 t1 rec).2.t * float.fin r.direction.y,
         float.fin r.origin.z + (xy_rect_hit a0 a1 b0 b1 k mp r t0 t1 rec).2.t * float.fin r.direction.z⟩ ∧
    (xy_rect_hit a0 a1 b0 b1 k mp r t0 t1 rec).2.mat_ptr = mp ∧
    (xy_rect_hit a0 a1 b0 b1 k mp r t0 t1 rec).2.normal = ⟨float.fin 0, float.fin 0, float.fin 1⟩ := by
  unfold xy_rect_hit at hs ⊢
  dsimp only at hs ⊢
  split_ifs at hs ⊢
  exact ⟨rfl, rfl, rfl, rfl⟩

theorem xz_rect_hit_indep (a0 a1 b0 b1 k : K) (mp : material_ptr) (r : ray K) (t0 t1 : K)
    (rec1 rec2 : hit_record K) :
    (xz_rect_hit a0 a1 b0 b1 k mp r t0 t1 rec1).1 = (xz_rect_hit a0 a1 b0 b1 k mp r t0 t1 rec2).1 ∧
    ((xz_rect_hit a0 a1 b0 b1 k mp r t0 t1 rec1).1 = true →
      (xz_rect_hit a0 a1 b0 b1 k mp r t0 t1 rec1).2 =
        (xz_rect_hit a0 a1 b0 b1 k mp r t0 t1 rec2).2) := by
  by_cases hd : r.direction.y = 0
  · rw [xz_rect_hit_of_eq_zero _ _ _ _ _ _ _ _ _ rec1 hd,
      xz_rect_hit_of_eq_zero _ _ _ _ _ _ _ _ _ rec2 hd]
    split_ifs <;> simp
  · rw [xz_rect_hit_of_ne_zero _ _ _ _ _ _ _ _ _ rec1 hd,
      xz_rect_hit_of_ne_zero _ _ _ _ _ _ _ _ _ rec2 hd]
    split_ifs <;> simp

theorem xz_rect_hit_fields (a0 a1 b0 b1 k : K) (mp : material_ptr) (r : ray K) (t0 t1 : K)
    (rec : hit_record K) (hs : (xz_rect_hit a0 a1 b0 b1 k mp r t0 t1 rec).1 = true) :
    (xz_rect_hit a0 a1 b0 b1 k mp r t0 t1 rec).2.t =
        (float.fin k - float.fin r.origin.y) / float.fin r.direction.y ∧
    (xz_rect_hit a0 a1 b0 b1 k mp r t0 t1 rec).2.p =
        ⟨float.fin r.origin.x + (xz_rect_hit a0 a1 b0 b1 k mp r t0 t1 rec).2.t * float.fin r.direction.x,
         float.fin r.origin.y + (xz_rect_hit a0 a1 b0 b1 k mp r t0 t1 rec).2.t * float.fin r.direction.y,
         float.fin r.origin.z + (xz_rect_hit a0 a1 b0 b1 k mp r t0 t1 rec).2.t * float.fin r.direction.z⟩ ∧
    (xz_rect_hit a0 a1 b0 b1 k mp r t0 t1 rec).2.mat_ptr = mp ∧
    (xz_rect_hit a0 a1 b0 b1 k mp r t0 t1 rec).2.normal = ⟨float.fin 0, float.fin 1, float.fin 0⟩ := by
  unfold xz_rect_hit at hs ⊢
  dsimp only at hs ⊢
  split_ifs at hs ⊢
  exact ⟨rfl, rfl, rfl, rfl⟩

theorem yz_rect_hit_indep (a0 a1 b0 b1 k : K) (mp : material_ptr) (r : ray K) (t0 t1 : K)
    (rec1 rec2 : hit_record K) :
    (yz_rect_hit a0 a1 b0 b1 k mp r t0 t1 rec1).1 = (yz_rect_hit a0 a1 b0 b1 k mp r t0 t1 rec2).1 ∧
    ((yz_rect_hit a0 a1 b0 b1 k mp r t0 t1 rec1).1 = true →
      (yz_rect_hit a0 a1 b0 b1 k mp r t0 t1 rec1).2 =
        (yz_rect_hit a0 a1 b0 b1 k mp r t0 t1 rec2).2) := by
  by_cases hd : r.direction.x = 0
  · rw [yz_rect_hit_of_eq_zero _ _ _ _ _ _ _ _ _ rec1 hd,
      yz_rect_hit_of_eq_zero _ _ _ _ _ _ _ _ _ rec2 hd]
    split_ifs <;> simp
  · rw [yz_rect_hit_of_ne_zero _ _ _ _ _ _ _ _ _ rec1 hd,
      yz_rect_hit_of_ne_zero _ _ _ _ _ _ _ _ _ rec2 hd]
    split_ifs <;> simp

theorem yz_rect_hit_fields (a0 a1 b0 b1 k : K) (mp : material_ptr) (r : ray K) (t0 t1 : K)
    (rec : hit_record K) (hs : (yz_rect_hit a0 a1 b0 b1 k mp r t0 t1 rec).1 = true) :
    (yz_rect_hit a0 a1 b0 b1 k mp r t0 t1 rec).2.t =
        (float.fin k - float.fin r.origin.x) / float.fin r.direction.x ∧
    (yz_rect_hit a0 a1 b0 b1 k mp r t0 t1 rec).2.p =
        ⟨float.fin r.origin.x + (yz_rect_hit a0 a1 b0 b1 k mp r t0 t1 rec).2.t * float.fin r.direction.x,
         float.fin r.origin.y + (yz_rect_hit a0 a1 b0 b1 k mp r t0 t1 rec).2.t * float.fin r.direction.y,
         float.fin r.origin.z + (yz_rect_hit a0 a1 b0 b1 k mp r t0 t1 rec).2.t * float.fin r.direction.z⟩ ∧
    (yz_rect_hit a0 a1 b0 b1 k mp r t0 t1 rec).2.mat_ptr = mp ∧
    (yz_rect_hit a0 a1 b0 b1 k mp r t0 t1 rec).2.normal = ⟨float.fin 1, float.fin 0, float.fin 0⟩ := by
  unfold yz_rect_hit at hs ⊢
  dsimp only at hs ⊢
  split_ifs at hs ⊢
  exact ⟨rfl, rfl, rfl, rfl⟩

/-- Claim C4: for every object built from the rectangles by nesting
`flip_normals`, `translate` and `rotate_y`, every ray and interval, the outcome
of `hit` is the same for any two initial records, and on success so is the
whole resulting record: no field of the output comes from the record passed
in. -/
theorem hit_success_overwrites_record (H : hitable K) (hH : H.from_rects) (r : ray K)
    (t_min t_max : K) (rec1 rec2 : hit_record K) :
    (H.hit r t_min t_max rec1).1 = (H.hit r t_min t_max rec2).1 ∧
    ((H.hit r t_min t_max rec1).1 = true →
      (H.hit r t_min t_max rec1).2 = (H.hit r t_min t_max rec2).2) := by
  induction H generalizing r with
  | xy_rect x0 x1 y0 y1 k mp => exact xy_rect_hit_indep x0 x1 y0 y1 k mp r t_min t_max rec1 rec2
  | xz_rect x0 x1 z0 z1 k mp => exact xz_rect_hit_indep x0 x1 z0 z1 k mp r t_min t_max rec1 rec2
  | yz_rect y0 y1 z0 z1 k mp => exact yz_rect_hit_indep y0 y1 z0 z1 k mp r t_min t_max rec1 rec2
  | flip_normals ptr ih =>
      obtain ⟨h1, h2⟩ := ih hH r
      rw [hit_flip_normals, hit_flip_normals, ← h1]
      by_cases h : (ptr.hit r t_min t_max rec1).1 = true
      · simp [h, ← h2 h]
      · simp [h]
  | translate ptr offset ih =>
      obtain ⟨h1, h2⟩ := ih hH (translate_moved_r offset r)
      rw [hit_translate, hit_translate, ← h1]
      by_cases h : (ptr.hit (translate_moved_r offset r) t_min t_max rec1).1 = true
      · simp [h, ← h2 h]
      · simp [h]
  | rotate_y ptr s c hasbox bbox ih =>
      obtain ⟨h1, h2⟩ := ih hH (rotate_y_rotated_r s c r)
      rw [hit_rotate_y, hit_rotate_y, ← h1]
      by_cases h : (ptr.hit (rotate_y_rotated_r s c r) t_min t_max rec1).1 = true
      · simp [h, ← h2 h]
      · simp [h]
  | other hit bb => exact absurd hH (by simp [hitable.from_rects])

theorem hit_success_overwrites_record_witness :
    ((hitable.rotate_y (hitable.translate (hitable.flip_normals
          (hitable.xy_rect (3 : ℚ) 5 1 3 2 7)) ⟨0, 0, 5⟩) 0 1 true ⟨⟨3, 1, 6⟩, ⟨5, 3, 8⟩⟩).hit
        ⟨⟨4, 2, 0⟩, ⟨0, 0, 1⟩, 0⟩ 0 100
        ⟨.fin 11, .fin 12, .fin 13, ⟨.fin 14, .fin 15, .fin 16⟩,
          ⟨.fin 17, .fin 18, .fin 19⟩, 20⟩).1 = true ∧
    ((hitable.rotate_y (hitable.translate (hitable.flip_normals
          (hitable.xy_rect (3 : ℚ) 5 1 3 2 7)) ⟨0, 0, 5⟩) 0 1 true ⟨⟨3, 1, 6⟩, ⟨5, 3, 8⟩⟩).hit
        ⟨⟨4, 2, 0⟩, ⟨0, 0, 1⟩, 0⟩ 0 100
        ⟨.fin 11, .fin 12, .fin 13, ⟨.fin 14, .fin 15, .fin 16⟩,
          ⟨.fin 17, .fin 18, .fin 19⟩, 20⟩).2 =
    ((hitable.rotate_y (hitable.translate (hitable.flip_normals
          (hitable.xy_rect (3 : ℚ) 5 1 3 2 7)) ⟨0, 0, 5⟩) 0 1 true ⟨⟨3, 1, 6⟩, ⟨5, 3, 8⟩⟩).hit
        ⟨⟨4, 2, 0⟩, ⟨0, 0, 1⟩, 0⟩ 0 100
        ⟨.nan, .pinf, .ninf, ⟨.nan, .nan, .nan⟩, ⟨.fin 0, .fin 0, .fin 0⟩, 0⟩).2 :=
  have hs : ((hitable.rotate_y (hitable.translate (hitable.flip_normals
          (hitable.xy_rect (3 : ℚ) 5 1 3 2 7)) ⟨0, 0, 5⟩) 0 1 true ⟨⟨3, 1, 6⟩, ⟨5, 3, 8⟩⟩).hit
        ⟨⟨4, 2, 0⟩, ⟨0, 0, 1⟩, 0⟩ 0 100
        ⟨.fin 11, .fin 12, .fin 13, ⟨.fin 14, .fin 15, .fin 16⟩,
          ⟨.fin 17, .fin 18, .fin 19⟩, 20⟩).1 = true := by
    simp [hit_rotate_y, hit_translate, hit_flip_normals, hit_xy_rect, xy_rect_hit, ray.origin,
      ray.direction, ray.time, rotate_y_rotated_r, translate_moved_r, vec3_sub_def]
    norm_num
  ⟨hs, (hit_success_overwrites_record _ (by simp [hitable.from_rects]) _ _ _ _ _).2 hs⟩

/-- Claim C5: on every ray and interval on which the `hit` of a rectangle
succeeds, the record holds `t = (k - origin_axis) / direction_axis`, `p` the
ray's point at parameter `t`, `origin + t * direction`, `mat_ptr` the
rectangle's own material pointer
and `normal` the unit vector of the positive plane axis: `(0,0,1)` for
`xy_rect`, `(0,1,0)` for `xz_rect`, `(1,0,0)` for `yz_rect`. -/
theorem rect_hit_record (a0 a1 b0 b1 k : K) (mp : material_ptr) (r : ray K) (t0 t1 : K)
    (rec : hit_record K) :
    (((hitable.xy_rect a0 a1 b0 b1 k mp).hit r t0 t1 rec).1 = true →
      ((hitable.xy_rect a0 a1 b0 b1 k mp).hit r t0 t1 rec).2.t =
          (float.fin k - float.fin r.origin.z) / float.fin r.direction.z ∧
      ((hitable.xy_rect a0 a1 b0 b1 k mp).hit r t0 t1 rec).2.p =
          ⟨float.fin r.origin.x
              + ((hitable.xy_rect a0 a1 b0 b1 k mp).hit r t0 t1 rec).2.t * float.fin r.direction.x,
           float.fin r.origin.y
              + ((hitable.xy_rect a0 a1 b0 b1 k mp).hit r t0 t1 rec).2.t * float.fin r.direction.y,
           float.fin r.origin.z
              + ((hitable.xy_rect a0 a1 b0 b1 k mp).hit r t0 t1 rec).2.t * float.fin r.direction.z⟩ ∧
      ((hitable.xy_rect a0 a1 b0 b1 k mp).hit r t0 t1 rec).2.mat_ptr = mp ∧
      ((hitable.xy_rect a0 a1 b0 b1 k mp).hit r t0 t1 rec).2.normal =
          ⟨float.fin 0, float.fin 0, float.fin 1⟩) ∧
    (((hitable.xz_rect a0 a1 b0 b1 k mp).hit r t0 t1 rec).1 = true →
      ((hitable.xz_rect a0 a1 b0 b1 k mp).hit r t0 t1 rec).2.t =
          (float.fin k - float.fin r.origin.y) / float.fin r.direction.y ∧
      ((hitable.xz_rect a0 a1 b0 b1 k mp).hit r t0 t1 rec).2.p =
          ⟨float.fin r.origin.x
              + ((hitable.xz_rect a0 a1 b0 b1 k mp).hit r t0 t1 rec).2.t * float.fin r.direction.x,
           float.fin r.origin.y
              + ((hitable.xz_rect a0 a1 b0 b1 k mp).hit r t0 t1 rec).2.t * float.fin r.direction.y,
           float.fin r.origin.z
              + ((hitable.xz_rect a0 a1 b0 b1 k mp).hit r t0 t1 rec).2.t * float.fin r.direction.z⟩ ∧
      ((hitable.xz_rect a0 a1 b0 b1 k mp).hit r t0 t1 rec).2.mat_ptr = mp ∧
      ((hitable.xz_rect a0 a1 b0 b1 k mp).hit r t0 t1 rec).2.normal =
          ⟨float.fin 0, float.fin 1, float.fin 0⟩) ∧
    (((hitable.yz_rect a0 a1 b0 b1 k mp).hit r t0 t1 rec).1 = true →
      ((hitable.yz_rect a0 a1 b0 b1 k mp).hit r t0 t1 rec).2.t =
          (float.fin k - float.fin r.origin.x) / float.fin r.direction.x ∧
      ((hitable.yz_rect a0 a1 b0 b1 k mp).hit r t0 t1 rec).2.p =
          ⟨float.fin r.origin.x
              + ((hitable.yz_rect a0 a1 b0 b1 k mp).hit r t0 t1 rec).2.t * float.fin r.direction.x,
           float.fin r.origin.y
              + ((hitable.yz_rect a0 a1 b0 b1 k mp).hit r t0 t1 rec).2.t * float.fin r.direction.y,
           float.fin r.origin.z
              + ((hitable.yz_rect a0 a1 b0 b1 k mp).hit r t0 t1 rec).2.t * float.fin r.direction.z⟩ ∧
      ((hitable.yz_rect a0 a1 b0 b1 k mp).hit r t0 t1 rec).2.mat_ptr = mp ∧
      ((hitable.yz_rect a0 a1 b0 b1 k mp).hit r t0 t1 rec).2.normal =
          ⟨float.fin 1, float.fin 0, float.fin 0⟩) :=
  ⟨fun hs => xy_rect_hit_fields a0 a1 b0 b1 k mp r t0 t1 rec hs,
   fun hs => xz_rect_hit_fields a0 a1 b0 b1 k mp r t0 t1 rec hs,
   fun hs => yz_rect_hit_fields a0 a1 b0 b1 k mp r t0 t1 rec hs⟩

theorem rect_hit_record_witness :
    ((hitable.xy_rect (3 : ℚ) 5 1 3 2 7).hit ⟨⟨4, 2, 0⟩, ⟨0, 0, 1⟩, 0⟩ 0 100
        ⟨.fin 11, .fin 12, .fin 13, ⟨.fin 14, .fin 15, .fin 16⟩,
          ⟨.fin 17, .fin 18, .fin 19⟩, 20⟩).1 = true ∧
    ((hitable.xy_rect (3 : ℚ) 5 1 3 2 7).hit ⟨⟨4, 2, 0⟩, ⟨0, 0, 1⟩, 0⟩ 0 100
        ⟨.fin 11, .fin 12, .fin 13, ⟨.fin 14, .fin 15, .fin 16⟩,
          ⟨.fin 17, .fin 18, .fin 19⟩, 20⟩).2 =
      ⟨.fin 2, .fin (1 / 2), .fin (1 / 2), ⟨.fin 4, .fin 2, .fin 2⟩,
        ⟨.fin 0, .fin 0, .fin 1⟩, 7⟩ := by
  have hs : ((hitable.xy_rect (3 : ℚ) 5 1 3 2 7).hit ⟨⟨4, 2, 0⟩, ⟨0, 0, 1⟩, 0⟩ 0 100
        ⟨.fin 11, .fin 12, .fin 13, ⟨.fin 14, .fin 15, .fin 16⟩,
          ⟨.fin 17, .fin 18, .fin 19⟩, 20⟩).1 = true := by
    simp [hit_xy_rect, xy_rect_hit, ray.origin, ray.direction]
    norm_num
  obtain ⟨ht, hp, hm, hn⟩ := (rect_hit_record (3 : ℚ) 5 1 3 2 7 ⟨⟨4, 2, 0⟩, ⟨0, 0, 1⟩, 0⟩ 0 100
        ⟨.fin 11, .fin 12, .fin 13, ⟨.fin 14, .fin 15, .fin 16⟩,
          ⟨.fin 17, .fin 18, .fin 19⟩, 20⟩).1 hs
  have ht2 : ((hitable.xy_rect (3 : ℚ) 5 1 3 2 7).hit ⟨⟨4, 2, 0⟩, ⟨0, 0, 1⟩, 0⟩ 0 100
        ⟨.fin 11, .fin 12, .fin 13, ⟨.fin 14, .fin 15, .fin 16⟩,
          ⟨.fin 17, .fin 18, .fin 19⟩, 20⟩).2.t = .fin 2 := by
    rw [ht]
    norm_num [ray.origin, ray.direction]
  rw [ht2] at hp
  refine ⟨hs, ?_⟩
  rw [hit_record.mk.injEq]
  refine ⟨ht2, ?_, ?_, ?_, hn, hm⟩
  · simp [hit_xy_rect, xy_rect_hit, ray.origin, ray.direction]
    norm_num
  · simp [hit_xy_rect, xy_rect_hit, ray.origin, ray.direction]
    norm_num
  · rw [hp]
    norm_num [ray.origin, ray.direction]

/-! ## The parameter `t` of a reported hit -/

theorem rotate_y_back_t (s c : K) (rec : hit_record K) : (rotate_y_back s c rec).t = rec.t := rfl

/-- The parameter reported by a successful `hit` of an object built from the
rectangles: a number of the interval when the rectangle's ray is not parallel
to its plane, NaN when it is. -/
theorem hit_t_number_or_nan (H : hitable K) (hH : H.from_rects) (r : ray K)
    (t_min t_max : K) (rec : hit_record K) (hs : (H.hit r t_min t_max rec).1 = true) :
    (H.axis_direction r ≠ 0 ∧
      ∃ t : K, (H.hit r t_min t_max rec).2.t = float.fin t ∧ t_min ≤ t ∧ t ≤ t_max) ∨
    (H.axis_direction r = 0 ∧ (H.hit r t_min t_max rec).2.t = float.nan) := by
  induction H generalizing r with
  | xy_rect x0 x1 y0 y1 k mp =>
      rw [hit_xy_rect] at hs ⊢
      by_cases hd : r.direction.z = 0
      · right
        refine ⟨hd, ?_⟩
        rw [xy_rect_hit_of_eq_zero _ _ _ _ _ _ _ _ _ _ hd] at hs ⊢
        split_ifs at hs ⊢
        rfl
      · left
        refine ⟨hd, (k - r.origin.z) / r.direction.z, ?_⟩
        rw [xy_rect_hit_of_ne_zero _ _ _ _ _ _ _ _ _ _ hd] at hs ⊢
        split_ifs at hs ⊢ with h1 h2
        simp only [not_or, not_lt] at h1
        exact ⟨rfl, h1⟩
  | xz_rect x0 x1 z0 z1 k mp =>
      rw [hit_xz_rect] at hs ⊢
      by_cases hd : r.direction.y = 0
      · right
        refine ⟨hd, ?_⟩
        rw [xz_rect_hit_of_eq_zero _ _ _ _ _ _ _ _ _ _ hd] at hs ⊢
        split_ifs at hs ⊢
        rfl
      · left
        refine ⟨hd, (k - r.origin.y) / r.direction.y, ?_⟩
        rw [xz_rect_hit_of_ne_zero _ _ _ _ _ _ _ _ _ _ hd] at hs ⊢
        split_ifs at hs ⊢ with h1 h2
        simp only [not_or, not_lt] at h1
        exact ⟨rfl, h1⟩
  | yz_rect y0 y1 z0 z1 k mp =>
      rw [hit_yz_rect] at hs ⊢
      by_cases hd : r.direction.x = 0
      · right
        refine ⟨hd, ?_⟩
        rw [yz_rect_hit_of_eq_zero _ _ _ _ _ _ _ _ _ _ hd] at hs ⊢
        split_ifs at hs ⊢
        rfl
      · left
        refine ⟨hd, (k - r.origin.x) / r.direction.x, ?_⟩
        rw [yz_rect_hit_of_ne_zero _ _ _ _ _ _ _ _ _ _ hd] at hs ⊢
        split_ifs at hs ⊢ with h1 h2
        simp only [not_or, not_lt] at h1
        exact ⟨rfl, h1⟩
  | flip_normals ptr ih =>
      rw [hit_flip_normals] at hs ⊢
      by_cases h : (ptr.hit r t_min t_max rec).1 = true
      · simpa only [if_pos h, hitable.axis_direction] using ih hH r h
      · simp [h] at hs
  | translate ptr offset ih =>
      rw [hit_translate] at hs ⊢
      by_cases h : (ptr.hit (translate_moved_r offset r) t_min t_max rec).1 = true
      · simpa only [if_pos h, hitable.axis_direction] using ih hH _ h
      · simp [h] at hs
  | rotate_y ptr s c hasbox bbox ih =>
      rw [hit_rotate_y] at hs ⊢
      by_cases h : (ptr.hit (rotate_y_rotated_r s c r) t_min t_max rec).1 = true
      · simpa only [if_pos h, hitable.axis_direction, rotate_y_back_t] using ih hH _ h
      · simp [h] at hs
  | other hit bb => exact absurd hH (by simp [hitable.from_rects])

/-- Claim C2, the code at a ray lying in the rectangle's plane: `xy_rect::hit`
for the rectangle `x` in `[3,5]`, `y` in `[1,3]`, `k = 2`, the ray from `(4,2,2)`
with direction `(1,0,0)` and the interval `[0,100]` returns success with
`rec.t` NaN, which is not in the interval: `0 <= rec.t` and `rec.t <= 100` are
both false. -/
theorem hit_reports_nan_parameter :
    ((hitable.xy_rect (3 : ℚ) 5 1 3 2 7).hit ⟨⟨4, 2, 2⟩, ⟨1, 0, 0⟩, 0⟩ 0 100
        ⟨.fin 11, .fin 12, .fin 13, ⟨.fin 14, .fin 15, .fin 16⟩,
          ⟨.fin 17, .fin 18, .fin 19⟩, 20⟩).1 = true ∧
    ((hitable.xy_rect (3 : ℚ) 5 1 3 2 7).hit ⟨⟨4, 2, 2⟩, ⟨1, 0, 0⟩, 0⟩ 0 100
        ⟨.fin 11, .fin 12, .fin 13, ⟨.fin 14, .fin 15, .fin 16⟩,
          ⟨.fin 17, .fin 18, .fin 19⟩, 20⟩).2.t = float.nan ∧
    ¬ (float.fin 0 ≤ ((hitable.xy_rect (3 : ℚ) 5 1 3 2 7).hit ⟨⟨4, 2, 2⟩, ⟨1, 0, 0⟩, 0⟩ 0 100
        ⟨.fin 11, .fin 12, .fin 13, ⟨.fin 14, .fin 15, .fin 16⟩,
          ⟨.fin 17, .fin 18, .fin 19⟩, 20⟩).2.t) ∧
    ¬ (((hitable.xy_rect (3 : ℚ) 5 1 3 2 7).hit ⟨⟨4, 2, 2⟩, ⟨1, 0, 0⟩, 0⟩ 0 100
        ⟨.fin 11, .fin 12, .fin 13, ⟨.fin 14, .fin 15, .fin 16⟩,
          ⟨.fin 17, .fin 18, .fin 19⟩, 20⟩).2.t ≤ float.fin 100) := by
  rw [hit_xy_rect, xy_rect_hit_of_eq_zero _ _ _ _ _ _ _ _ _ _ (by simp [ray.direction])]
  simp [ray.origin]

/-! ## Texture coordinates -/

/-- The texture coordinates written by `xy_rect::hit` for a ray that is not
parallel to the plane and extents with `lo < hi`: numbers of `[0,1]`, equal to
the fraction of the extent covered. -/
theorem xy_rect_hit_uv_of_ne_zero (a0 a1 b0 b1 k : K) (mp : material_ptr) (r : ray K) (t0 t1 : K)
    (rec : hit_record K) (ha : a0 < a1) (hb : b0 < b1) (hd : r.direction.z ≠ 0)
    (hs : (xy_rect_hit a0 a1 b0 b1 k mp r t0 t1 rec).1 = true) :
    ∃ u v : K,
      (xy_rect_hit a0 a1 b0 b1 k mp r t0 t1 rec).2.u = float.fin u ∧
      (xy_rect_hit a0 a1 b0 b1 k mp r t0 t1 rec).2.v = float.fin v ∧
      u = (r.origin.x + (k - r.origin.z) / r.direction.z * r.direction.x - a0) / (a1 - a0) ∧
      v = (r.origin.y + (k - r.origin.z) / r.direction.z * r.direction.y - b0) / (b1 - b0) ∧
      0 ≤ u ∧ u ≤ 1 ∧ 0 ≤ v ∧ v ≤ 1 := by
  have ha0 : a1 - a0 ≠ 0 := ne_of_gt (sub_pos.mpr ha)
  have hb0 : b1 - b0 ≠ 0 := ne_of_gt (sub_pos.mpr hb)
  rw [xy_rect_hit_of_ne_zero _ _ _ _ _ _ _ _ _ _ hd] at hs ⊢
  split_ifs at hs ⊢ with h1 h2
  simp only [not_or, not_lt] at h2
  obtain ⟨hx0, hx1, hy0, hy1⟩ := h2
  refine ⟨_, _, float.fin_div_fin _ _ ha0, float.fin_div_fin _ _ hb0, rfl, rfl, ?_, ?_, ?_, ?_⟩
  · exact div_nonneg (sub_nonneg.mpr hx0) (sub_pos.mpr ha).le
  · rw [div_le_one (sub_pos.mpr ha)]
    exact sub_le_sub_right hx1 a0
  · exact div_nonneg (sub_nonneg.mpr hy0) (sub_pos.mpr hb).le
  · rw [div_le_one (sub_pos.mpr hb)]
    exact sub_le_sub_right hy1 b0

/-- The texture coordinates written by `xz_rect::hit` for a ray that is not
parallel to the plane and extents with `lo < hi`: numbers of `[0,1]`, equal to
the fraction of the extent covered. -/
theorem xz_rect_hit_uv_of_ne_zero (a0 a1 b0 b1 k : K) (mp : material_ptr) (r : ray K) (t0 t1 : K)
    (rec : hit_record K) (ha : a0 < a1) (hb : b0 < b1) (hd : r.direction.y ≠ 0)
    (hs : (xz_rect_hit a0 a1 b0 b1 k mp r t0 t1 rec).1 = true) :
    ∃ u v : K,
      (xz_rect_hit a0 a1 b0 b1 k mp r t0 t1 rec).2.u = float.fin u ∧
      (xz_rect_hit a0 a1 b0 b1 k mp r t0 t1 rec).2.v = float.fin v ∧
      u = (r.origin.x + (k - r.origin.y) / r.direction.y * r.direction.x - a0) / (a1 - a0) ∧
      v = (r.origin.z + (k - r.origin.y) / r.direction.y * r.direction.z - b0) / (b1 - b0) ∧
      0 ≤ u ∧ u ≤ 1 ∧ 0 ≤ v ∧ v ≤ 1 := by
  have ha0 : a1 - a0 ≠ 0 := ne_of_gt (sub_pos.mpr ha)
  have hb0 : b1 - b0 ≠ 0 := ne_of_gt (sub_pos.mpr hb)
  rw [xz_rect_hit_of_ne_zero _ _ _ _ _ _ _ _ _ _ hd] at hs ⊢
  split_ifs at hs ⊢ with h1 h2
  simp only [not_or, not_lt] at h2
  obtain ⟨hx0, hx1, hy0, hy1⟩ := h2
  refine ⟨_, _, float.fin_div_fin _ _ ha0, float.fin_div_fin _ _ hb0, rfl, rfl, ?_, ?_, ?_, ?_⟩
  · exact div_nonneg (sub_nonneg.mpr hx0) (sub_pos.mpr ha).le
  · rw [div_le_one (sub_pos.mpr ha)]
    exact sub_le_sub_right hx1 a0
  · exact div_nonneg (sub_nonneg.mpr hy0) (sub_pos.mpr hb).le
  · rw [div_le_one (sub_pos.mpr hb)]
    exact sub_le_sub_right hy1 b0

/-- The texture coordinates written by `yz_rect::hit` for a ray that is not
parallel to the plane and extents with `lo < hi`: numbers of `[0,1]`, equal to
the fraction of the extent covered. -/
theorem yz_rect_hit_uv_of_ne_zero (a0 a1 b0 b1 k : K) (mp : material_ptr) (r : ray K) (t0 t1 : K)
    (rec : hit_record K) (ha : a0 < a1) (hb : b0 < b1) (hd : r.direction.x ≠ 0)
    (hs : (yz_rect_hit a0 a1 b0 b1 k mp r t0 t1 rec).1 = true) :
    ∃ u v : K,
      (yz_rect_hit a0 a1 b0 b1 k mp r t0 t1 rec).2.u = float.fin u ∧
      (yz_rect_hit a0 a1 b0 b1 k mp r t0 t1 rec).2.v = float.fin v ∧
      u = (r.origin.y + (k - r.origin.x) / r.direction.x * r.direction.y - a0) / (a1 - a0) ∧
      v = (r.origin.z + (k - r.origin.x) / r.direction.x * r.direction.z - b0) / (b1 - b0) ∧
      0 ≤ u ∧ u ≤ 1 ∧ 0 ≤ v ∧ v ≤ 1 := by
  have ha0 : a1 - a0 ≠ 0 := ne_of_gt (sub_pos.mpr ha)
  have hb0 : b1 - b0 ≠ 0 := ne_of_gt (sub_pos.mpr hb)
  rw [yz_rect_hit_of_ne_zero _ _ _ _ _ _ _ _ _ _ hd] at hs ⊢
  split_ifs at hs ⊢ with h1 h2
  simp only [not_or, not_lt] at h2
  obtain ⟨hx0, hx1, hy0, hy1⟩ := h2
  refine ⟨_, _, float.fin_div_fin _ _ ha0, float.fin_div_fin _ _ hb0, rfl, rfl, ?_, ?_, ?_, ?_⟩
  · exact div_nonneg (sub_nonneg.mpr hx0) (sub_pos.mpr ha).le
  · rw [div_le_one (sub_pos.mpr ha)]
    exact sub_le_sub_right hx1 a0
  · exact div_nonneg (sub_nonneg.mpr hy0) (sub_pos.mpr hb).le
  · rw [div_le_one (sub_pos.mpr hb)]
    exact sub_le_sub_right hy1 b0

/-- Claim C6, the code at a ray lying in the rectangle's plane: for the
rectangle `x` in `[3,5]`, `y` in `[1,3]` (both extents with `lo < hi`), `k = 2`,
the ray from `(4,2,2)` with direction `(1,0,0)` and the interval `[0,100]`,
`xy_rect::hit` returns success with `u` and `v` NaN: neither lies in
`[0,1]`. -/
theorem hit_reports_nan_uv :
    (3 : ℚ) < 5 ∧ (1 : ℚ) < 3 ∧
    ((hitable.xy_rect (3 : ℚ) 5 1 3 2 7).hit ⟨⟨4, 2, 2⟩, ⟨1, 0, 0⟩, 0⟩ 0 100
        ⟨.fin 11, .fin 12, .fin 13, ⟨.fin 14, .fin 15, .fin 16⟩,
          ⟨.fin 17, .fin 18, .fin 19⟩, 20⟩).1 = true ∧
    ((hitable.xy_rect (3 : ℚ) 5 1 3 2 7).hit ⟨⟨4, 2, 2⟩, ⟨1, 0, 0⟩, 0⟩ 0 100
        ⟨.fin 11, .fin 12, .fin 13, ⟨.fin 14, .fin 15, .fin 16⟩,
          ⟨.fin 17, .fin 18, .fin 19⟩, 20⟩).2.u = float.nan ∧
    ((hitable.xy_rect (3 : ℚ) 5 1 3 2 7).hit ⟨⟨4, 2, 2⟩, ⟨1, 0, 0⟩, 0⟩ 0 100
        ⟨.fin 11, .fin 12, .fin 13, ⟨.fin 14, .fin 15, .fin 16⟩,
          ⟨.fin 17, .fin 18, .fin 19⟩, 20⟩).2.v = float.nan ∧
    ¬ (float.fin 0 ≤ ((hitable.xy_rect (3 : ℚ) 5 1 3 2 7).hit ⟨⟨4, 2, 2⟩, ⟨1, 0, 0⟩, 0⟩ 0 100
        ⟨.fin 11, .fin 12, .fin 13, ⟨.fin 14, .fin 15, .fin 16⟩,
          ⟨.fin 17, .fin 18, .fin 19⟩, 20⟩).2.u) ∧
    ¬ (float.fin 0 ≤ ((hitable.xy_rect (3 : ℚ) 5 1 3 2 7).hit ⟨⟨4, 2, 2⟩, ⟨1, 0, 0⟩, 0⟩ 0 100
        ⟨.fin 11, .fin 12, .fin 13, ⟨.fin 14, .fin 15, .fin 16⟩,
          ⟨.fin 17, .fin 18, .fin 19⟩, 20⟩).2.v) := by
  rw [hit_xy_rect, xy_rect_hit_of_eq_zero _ _ _ _ _ _ _ _ _ _ (by simp [ray.direction])]
  simp [ray.origin]
  norm_num

/-! ## The decorators -/

/-- Claim C7: for every wrapped object `S`, ray, interval and initial record,
`hit` on `flip_normals(flip_normals(S))` returns what `hit` on `S` returns: the
same outcome and the same record, the normal being negated twice. -/
theorem flip_normals_twice (S : hitable K) (r : ray K) (t_min t_max : K) (rec : hit_record K) :
    ((hitable.flip_normals (hitable.flip_normals S)).hit r t_min t_max rec).1
        = (S.hit r t_min t_max rec).1 ∧
    ((hitable.flip_normals (hitable.flip_normals S)).hit r t_min t_max rec).2.normal
        = (S.hit r t_min t_max rec).2.normal ∧
    ((hitable.flip_normals (hitable.flip_normals S)).hit r t_min t_max rec).2
        = (S.hit r t_min t_max rec).2 := by
  rw [hit_flip_normals, hit_flip_normals]
  by_cases h : (S.hit r t_min t_max rec).1 = true
  · simp [h, vec3_neg_def]
  · simp [h]

/-- Claim C8: for every wrapped object `S`, offset `O`, ray `R` and interval,
`translate(S,O).hit(R)` succeeds exactly when `S.hit` succeeds on the same
interval for the ray with origin `R.origin - O` and the direction and time of
`R`; on success the record has the `t` of `S`'s record and the point `p + O`,
`p` being the point of `S`'s record. -/
theorem translate_hit_round_trip (S : hitable K) (O : vec3 K) (R : ray K) (t_min t_max : K)
    (rec : hit_record K) :
    ((hitable.translate S O).hit R t_min t_max rec).1
        = (S.hit ⟨R.origin - O, R.direction, R.time⟩ t_min t_max rec).1 ∧
    ((S.hit ⟨R.origin - O, R.direction, R.time⟩ t_min t_max rec).1 = true →
      ((hitable.translate S O).hit R t_min t_max rec).2.t
          = (S.hit ⟨R.origin - O, R.direction, R.time⟩ t_min t_max rec).2.t ∧
      ((hitable.translate S O).hit R t_min t_max rec).2.p
          = (S.hit ⟨R.origin - O, R.direction, R.time⟩ t_min t_max rec).2.p + O.lift) := by
  have hr : (⟨R.origin - O, R.direction, R.time⟩ : ray K) = translate_moved_r O R := rfl
  rw [hit_translate, hr]
  by_cases h : (S.hit (translate_moved_r O R) t_min t_max rec).1 = true
  · rw [if_pos h]
    exact ⟨h.symm, fun _ => ⟨rfl, rfl⟩⟩
  · rw [if_neg h]
    exact ⟨(Bool.not_eq_true _ ▸ h).symm, fun h2 => absurd h2 h⟩

theorem translate_hit_round_trip_witness :
    ((hitable.xy_rect (3 : ℚ) 5 1 3 2 7).hit
        ⟨ray.origin ⟨⟨4, 2, 0⟩, ⟨0, 0, 1⟩, 0⟩ - ⟨0, 0, 5⟩, ⟨0, 0, 1⟩, 0⟩ 0 100
        ⟨.fin 11, .fin 12, .fin 13, ⟨.fin 14, .fin 15, .fin 16⟩,
          ⟨.fin 17, .fin 18, .fin 19⟩, 20⟩).1 = true ∧
    ((hitable.translate (hitable.xy_rect (3 : ℚ) 5 1 3 2 7) ⟨0, 0, 5⟩).hit
        ⟨⟨4, 2, 0⟩, ⟨0, 0, 1⟩, 0⟩ 0 100
        ⟨.fin 11, .fin 12, .fin 13, ⟨.fin 14, .fin 15, .fin 16⟩,
          ⟨.fin 17, .fin 18, .fin 19⟩, 20⟩).1 = true ∧
    ((hitable.translate (hitable.xy_rect (3 : ℚ) 5 1 3 2 7) ⟨0, 0, 5⟩).hit
        ⟨⟨4, 2, 0⟩, ⟨0, 0, 1⟩, 0⟩ 0 100
        ⟨.fin 11, .fin 12, .fin 13, ⟨.fin 14, .fin 15, .fin 16⟩,
          ⟨.fin 17, .fin 18, .fin 19⟩, 20⟩).2.t = .fin 7 ∧
    ((hitable.translate (hitable.xy_rect (3 : ℚ) 5 1 3 2 7) ⟨0, 0, 5⟩).hit
        ⟨⟨4, 2, 0⟩, ⟨0, 0, 1⟩, 0⟩ 0 100
        ⟨.fin 11, .fin 12, .fin 13, ⟨.fin 14, .fin 15, .fin 16⟩,
          ⟨.fin 17, .fin 18, .fin 19⟩, 20⟩).2.p = ⟨.fin 4, .fin 2, .fin 7⟩ := by
  have hs : ((hitable.xy_rect (3 : ℚ) 5 1 3 2 7).hit
        ⟨ray.origin ⟨⟨4, 2, 0⟩, ⟨0, 0, 1⟩, 0⟩ - ⟨0, 0, 5⟩, ray.direction ⟨⟨4, 2, 0⟩, ⟨0, 0, 1⟩, 0⟩,
          ray.time ⟨⟨4, 2, 0⟩, ⟨0, 0, 1⟩, 0⟩⟩ 0 100
        ⟨.fin 11, .fin 12, .fin 13, ⟨.fin 14, .fin 15, .fin 16⟩,
          ⟨.fin 17, .fin 18, .fin 19⟩, 20⟩).1 = true := by
    simp [hit_xy_rect, xy_rect_hit, ray.origin, ray.direction, vec3_sub_def]
    norm_num
  obtain ⟨h1, h2⟩ := translate_hit_round_trip (hitable.xy_rect (3 : ℚ) 5 1 3 2 7) ⟨0, 0, 5⟩
    ⟨⟨4, 2, 0⟩, ⟨0, 0, 1⟩, 0⟩ 0 100
    ⟨.fin 11, .fin 12, .fin 13, ⟨.fin 14, .fin 15, .fin 16⟩, ⟨.fin 17, .fin 18, .fin 19⟩, 20⟩
  obtain ⟨ht, hp⟩ := h2 hs
  refine ⟨hs, h1.trans hs, ?_, ?_⟩
  · rw [ht]
    simp [hit_xy_rect, xy_rect_hit, ray.origin, ray.direction, vec3_sub_def]
    norm_num
  · rw [hp]
    simp [hit_xy_rect, xy_rect_hit, ray.origin, ray.direction, ray.point_at_parameter,
      vec3_sub_def, vec3_add_def, vec3.lift]
    norm_num

/-! ## `rotate_y` by an angle and by its opposite -/

theorem rotate_y_rotated_r_inverse (s c : K) (h : s ^ 2 + c ^ 2 = 1) (r : ray K) :
    rotate_y_rotated_r s c (rotate_y_rotated_r (-s) c r) = r := by
  obtain ⟨⟨ox, oy, oz⟩, ⟨dx, dy, dz⟩, tm⟩ := r
  simp only [rotate_y_rotated_r, ray.origin, ray.direction, ray.time, ray.mk.injEq,
    vec3.mk.injEq, and_true, true_and]
  refine ⟨⟨?_, ?_⟩, ?_, ?_⟩
  · linear_combination ox * h
  · linear_combination oz * h
  · linear_combination dx * h
  · linear_combination dz * h

theorem rotate_y_back_inverse (s c : K) (h : s ^ 2 + c ^ 2 = 1) (rec : hit_record K)
    (p n : vec3 K) (hp : rec.p = p.lift) (hn : rec.normal = n.lift) :
    rotate_y_back (-s) c (rotate_y_back s c rec) = rec := by
  obtain ⟨t, u, v, rp, rn, m⟩ := rec
  obtain ⟨px, py, pz⟩ := p
  obtain ⟨nx, ny, nz⟩ := n
  simp only [vec3.lift] at hp hn
  subst hp hn
  simp only [rotate_y_back, float.fin_mul_fin, float.fin_add_fin, hit_record.mk.injEq,
    vec3.mk.injEq, float.fin.injEq, and_true, true_and]
  refine ⟨⟨?_, ?_⟩, ?_, ?_⟩
  · linear_combination px * h
  · linear_combination pz * h
  · linear_combination nx * h
  · linear_combination nz * h

/-- Claim C9: for every wrapped object `S`, every angle `theta` and every ray
and interval on which `S.hit` succeeds with a point and a normal made of
numbers, `rotate_y(rotate_y(S, theta), -theta).hit` succeeds and returns the
record of `S.hit`: the same `t`, `u`, `v`, `mat_ptr`, `p` and `normal`.  The
arithmetic is exact; `sinf` and `cosf` are any functions with
`sin(-x) = -sin x`, `cos(-x) = cos x` and `sin^2 + cos^2 = 1`. -/
theorem rotate_y_inverse (sinf cosf : K → K) (hsin : ∀ x, sinf (-x) = -sinf x)
    (hcos : ∀ x, cosf (-x) = cosf x) (hpyth : ∀ x, sinf x ^ 2 + cosf x ^ 2 = 1)
    (S : hitable K) (theta : K) (bbox0 bbox1 : aabb K) (R : ray K) (t_min t_max : K)
    (rec : hit_record K) (p n : vec3 K)
    (hs : (S.hit R t_min t_max rec).1 = true)
    (hp : (S.hit R t_min t_max rec).2.p = p.lift)
    (hn : (S.hit R t_min t_max rec).2.normal = n.lift) :
    (rotate_y_new sinf cosf (rotate_y_new sinf cosf S theta bbox0) (-theta) bbox1).hit
        R t_min t_max rec = S.hit R t_min t_max rec := by
  have hrad : (3.1428 / 180 : K) * -theta = -((3.1428 / 180) * theta) := by ring
  have h1 := hpyth ((3.1428 / 180) * theta)
  simp only [rotate_y_new, rotate_y_init, hrad, hsin, hcos]
  rw [hit_rotate_y, hit_rotate_y, rotate_y_rotated_r_inverse _ _ h1, if_pos hs, if_pos rfl]
  show (true, rotate_y_back _ _ (rotate_y_back _ _ (S.hit R t_min t_max rec).2)) = _
  rw [rotate_y_back_inverse _ _ h1 _ p n hp hn, ← hs]

theorem circle_sin_neg (x : K) : circle_sin (-x) = -circle_sin x := by
  simp only [circle_sin, neg_sq]
  ring

theorem circle_cos_neg (x : K) : circle_cos (-x) = circle_cos x := by
  simp only [circle_cos, neg_sq]

theorem circle_sin_sq_add_cos_sq (x : K) : circle_sin x ^ 2 + circle_cos x ^ 2 = 1 := by
  have h : (1 + x ^ 2 : K) ≠ 0 := by positivity
  simp only [circle_sin, circle_cos]
  field_simp
  ring

/-- The hit of the rectangle `x` in `[3,5]`, `y` in `[1,3]`, `k = 2` by the ray
from `(4,2,0)` with direction `(0,0,1)`. -/
theorem xy_rect_scenario_hit (rec : hit_record ℚ) :
    (hitable.xy_rect (3 : ℚ) 5 1 3 2 7).hit ⟨⟨4, 2, 0⟩, ⟨0, 0, 1⟩, 0⟩ 0 100 rec =
      (true, ⟨.fin 2, .fin (1 / 2), .fin (1 / 2), ⟨.fin 4, .fin 2, .fin 2⟩,
        ⟨.fin 0, .fin 0, .fin 1⟩, 7⟩) := by
  simp [hit_xy_rect, xy_rect_hit, ray.origin, ray.direction, ray.point_at_parameter]
  norm_num

theorem rotate_y_inverse_witness :
    (rotate_y_new circle_sin circle_cos
        (rotate_y_new circle_sin circle_cos (hitable.xy_rect (3 : ℚ) 5 1 3 2 7) 30
          ⟨⟨0, 0, 0⟩, ⟨0, 0, 0⟩⟩) (-30) ⟨⟨0, 0, 0⟩, ⟨0, 0, 0⟩⟩).hit
        ⟨⟨4, 2, 0⟩, ⟨0, 0, 1⟩, 0⟩ 0 100
        ⟨.fin 11, .fin 12, .fin 13, ⟨.fin 14, .fin 15, .fin 16⟩,
          ⟨.fin 17, .fin 18, .fin 19⟩, 20⟩ =
      (true, ⟨.fin 2, .fin (1 / 2), .fin (1 / 2), ⟨.fin 4, .fin 2, .fin 2⟩,
        ⟨.fin 0, .fin 0, .fin 1⟩, 7⟩) :=
  (rotate_y_inverse circle_sin circle_cos circle_sin_neg circle_cos_neg circle_sin_sq_add_cos_sq
    (hitable.xy_rect (3 : ℚ) 5 1 3 2 7) 30 ⟨⟨0, 0, 0⟩, ⟨0, 0, 0⟩⟩ ⟨⟨0, 0, 0⟩, ⟨0, 0, 0⟩⟩
    ⟨⟨4, 2, 0⟩, ⟨0, 0, 1⟩, 0⟩ 0 100
    ⟨.fin 11, .fin 12, .fin 13, ⟨.fin 14, .fin 15, .fin 16⟩, ⟨.fin 17, .fin 18, .fin 19⟩, 20⟩
    ⟨4, 2, 2⟩ ⟨0, 0, 1⟩
    (by rw [xy_rect_scenario_hit]) (by rw [xy_rect_scenario_hit]; rfl)
    (by rw [xy_rect_scenario_hit]; rfl)).trans (xy_rect_scenario_hit _)

/-! ## Bounding boxes -/

theorem bounding_box_flip_normals (ptr : hitable K) (t0 t1 : K) (box : aabb K) :
    (hitable.flip_normals ptr).bounding_box t0 t1 box = ptr.bounding_box t0 t1 box := by
  rw [hitable.bounding_box]

theorem bounding_box_rotate_y (ptr : hitable K) (s c : K) (hasbox : Bool) (bbox : aabb K)
    (t0 t1 : K) (box : aabb K) :
    (hitable.rotate_y ptr s c hasbox bbox).bounding_box t0 t1 box = (hasbox, bbox) := by
  rw [hitable.bounding_box]

/-- Each component of `tester` lies between the `min` and `max` components of the
pair `acc`. -/
theorem rotate_y_grow_self (acc : vec3 K × vec3 K) (t : vec3 K) :
    ((rotate_y_grow acc t).1.x ≤ t.x ∧ t.x ≤ (rotate_y_grow acc t).2.x) ∧
    ((rotate_y_grow acc t).1.y ≤ t.y ∧ t.y ≤ (rotate_y_grow acc t).2.y) ∧
    ((rotate_y_grow acc t).1.z ≤ t.z ∧ t.z ≤ (rotate_y_grow acc t).2.z) := by
  simp only [rotate_y_grow, gt_iff_lt]
  refine ⟨⟨?_, ?_⟩, ⟨?_, ?_⟩, ?_, ?_⟩ <;> split_ifs with h <;>
    first | exact le_refl _ | exact not_lt.mp h

theorem rotate_y_grow_mono (acc : vec3 K × vec3 K) (t q : vec3 K)
    (h : (acc.1.x ≤ q.x ∧ q.x ≤ acc.2.x) ∧ (acc.1.y ≤ q.y ∧ q.y ≤ acc.2.y) ∧
      (acc.1.z ≤ q.z ∧ q.z ≤ acc.2.z)) :
    ((rotate_y_grow acc t).1.x ≤ q.x ∧ q.x ≤ (rotate_y_grow acc t).2.x) ∧
    ((rotate_y_grow acc t).1.y ≤ q.y ∧ q.y ≤ (rotate_y_grow acc t).2.y) ∧
    ((rotate_y_grow acc t).1.z ≤ q.z ∧ q.z ≤ (rotate_y_grow acc t).2.z) := by
  obtain ⟨⟨h1, h2⟩, ⟨h3, h4⟩, h5, h6⟩ := h
  simp only [rotate_y_grow, gt_iff_lt]
  refine ⟨⟨?_, ?_⟩, ⟨?_, ?_⟩, ?_, ?_⟩ <;> split_ifs with h <;>
    first | assumption | exact le_trans h.le (by assumption) | exact le_trans (by assumption) h.le

/-- The pair `(min, max)` computed by the loops of the `rotate_y` constructor
bounds the `tester` of each of the eight corners. -/
theorem rotate_y_corners_bound (s c : K) (b : aabb K) (i j k : Nat) (hi : i < 2) (hj : j < 2)
    (hk : k < 2) :
    ((rotate_y_corners s c b).1.x ≤ (rotate_y_tester s c b i j k).x ∧
      (rotate_y_tester s c b i j k).x ≤ (rotate_y_corners s c b).2.x) ∧
    ((rotate_y_corners s c b).1.y ≤ (rotate_y_tester s c b i j k).y ∧
      (rotate_y_tester s c b i j k).y ≤ (rotate_y_corners s c b).2.y) ∧
    ((rotate_y_corners s c b).1.z ≤ (rotate_y_tester s c b i j k).z ∧
      (rotate_y_tester s c b i j k).z ≤ (rotate_y_corners s c b).2.z) := by
  have hr : List.range 2 = [0, 1] := rfl
  simp only [rotate_y_corners, hr, List.foldl_cons, List.foldl_nil]
  interval_cases i <;> interval_cases j <;> interval_cases k <;>
    repeat (first | exact rotate_y_grow_self _ _ | apply rotate_y_grow_mono)

/-- A linear form of a point of a rectangle is at most its value at one of the
four corners. -/
theorem linear_le_corner (a b x z x0 x1 z0 z1 : K) (hx0 : x0 ≤ x) (hx1 : x ≤ x1) (hz0 : z0 ≤ z)
    (hz1 : z ≤ z1) :
    ∃ i k : Nat, i < 2 ∧ k < 2 ∧
      a * x + b * z ≤ a * ((i : K) * x1 + (1 - (i : K)) * x0)
        + b * ((k : K) * z1 + (1 - (k : K)) * z0) := by
  rcases le_total 0 a with ha | ha <;> rcases le_total 0 b with hb | hb
  · refine ⟨1, 1, by norm_num, by norm_num, ?_⟩
    simp only [Nat.cast_one, one_mul, sub_self, zero_mul, add_zero]
    exact add_le_add (mul_le_mul_of_nonneg_left hx1 ha) (mul_le_mul_of_nonneg_left hz1 hb)
  · refine ⟨1, 0, by norm_num, by norm_num, ?_⟩
    simp only [Nat.cast_one, Nat.cast_zero, one_mul, sub_self, zero_mul, add_zero, sub_zero,
      zero_add]
    exact add_le_add (mul_le_mul_of_nonneg_left hx1 ha) (mul_le_mul_of_nonpos_left hz0 hb)
  · refine ⟨0, 1, by norm_num, by norm_num, ?_⟩
    simp only [Nat.cast_one, Nat.cast_zero, one_mul, sub_self, zero_mul, add_zero, sub_zero,
      zero_add]
    exact add_le_add (mul_le_mul_of_nonpos_left hx0 ha) (mul_le_mul_of_nonneg_left hz1 hb)
  · refine ⟨0, 0, by norm_num, by norm_num, ?_⟩
    simp only [Nat.cast_zero, one_mul, zero_mul, sub_zero, zero_add]
    exact add_le_add (mul_le_mul_of_nonpos_left hx0 ha) (mul_le_mul_of_nonpos_left hz0 hb)

/-- A linear form of a point of a rectangle is at least its value at one of the
four corners. -/
theorem corner_le_linear (a b x z x0 x1 z0 z1 : K) (hx0 : x0 ≤ x) (hx1 : x ≤ x1) (hz0 : z0 ≤ z)
    (hz1 : z ≤ z1) :
    ∃ i k : Nat, i < 2 ∧ k < 2 ∧
      a * ((i : K) * x1 + (1 - (i : K)) * x0) + b * ((k : K) * z1 + (1 - (k : K)) * z0)
        ≤ a * x + b * z := by
  obtain ⟨i, k, hi, hk, h⟩ := linear_le_corner (-a) (-b) x z x0 x1 z0 z1 hx0 hx1 hz0 hz1
  exact ⟨i, k, hi, hk, by linarith⟩

/-- The box stored by the `rotate_y` constructor holds the rotated image of
every point of the wrapped object's box. -/
theorem rotate_y_corners_enclose (s c : K) (b : aabb K) (q : vec3 K)
    (hx : b.min.x ≤ q.x ∧ q.x ≤ b.max.x) (hy : b.min.y ≤ q.y ∧ q.y ≤ b.max.y)
    (hz : b.min.z ≤ q.z ∧ q.z ≤ b.max.z) :
    ((rotate_y_corners s c b).1.x ≤ c * q.x + s * q.z ∧
      c * q.x + s * q.z ≤ (rotate_y_corners s c b).2.x) ∧
    ((rotate_y_corners s c b).1.y ≤ q.y ∧ q.y ≤ (rotate_y_corners s c b).2.y) ∧
    ((rotate_y_corners s c b).1.z ≤ -s * q.x + c * q.z ∧
      -s * q.x + c * q.z ≤ (rotate_y_corners s c b).2.z) := by
  refine ⟨⟨?_, ?_⟩, ⟨?_, ?_⟩, ?_, ?_⟩
  · obtain ⟨i, k, hi, hk, h⟩ := corner_le_linear c s q.x q.z _ _ _ _ hx.1 hx.2 hz.1 hz.2
    exact le_trans (rotate_y_corners_bound s c b i 0 k hi (by norm_num) hk).1.1 h
  · obtain ⟨i, k, hi, hk, h⟩ := linear_le_corner c s q.x q.z _ _ _ _ hx.1 hx.2 hz.1 hz.2
    exact le_trans h (rotate_y_corners_bound s c b i 0 k hi (by norm_num) hk).1.2
  · have h := (rotate_y_corners_bound s c b 0 0 0 (by norm_num) (by norm_num) (by norm_num)).2.1.1
    simp only [rotate_y_tester, Nat.cast_zero, zero_mul, sub_zero, one_mul, zero_add] at h
    exact le_trans h hy.1
  · have h := (rotate_y_corners_bound s c b 0 1 0 (by norm_num) (by norm_num) (by norm_num)).2.1.2
    simp only [rotate_y_tester, Nat.cast_one, one_mul, sub_self, zero_mul, add_zero] at h
    exact le_trans hy.2 h
  · obtain ⟨i, k, hi, hk, h⟩ := corner_le_linear (-s) c q.x q.z _ _ _ _ hx.1 hx.2 hz.1 hz.2
    exact le_trans (rotate_y_corners_bound s c b i 0 k hi (by norm_num) hk).2.2.1 h
  · obtain ⟨i, k, hi, hk, h⟩ := linear_le_corner (-s) c q.x q.z _ _ _ _ hx.1 hx.2 hz.1 hz.2
    exact le_trans h (rotate_y_corners_bound s c b i 0 k hi (by norm_num) hk).2.2.2

theorem plane_coordinate (k o d : K) (hd : d ≠ 0) : o + (k - o) / d * d = k := by
  field_simp

/-- The point of a successful `hit` is made of numbers and lies in the box that
`bounding_box` reports, for an object built from the rectangles through the
constructors and a ray not parallel to the rectangle's plane. -/
theorem hit_point_in_box (H : hitable K) (hH : H.from_rects) (hc : H.constructed) (r : ray K)
    (t0 t1 : K) (box0 : aabb K) (t_min t_max : K) (rec : hit_record K)
    (hd : H.axis_direction r ≠ 0) (hs : (H.hit r t_min t_max rec).1 = true) :
    (H.bounding_box t0 t1 box0).1 = true ∧
    ∃ q : vec3 K, (H.hit r t_min t_max rec).2.p = q.lift ∧
      ((H.bounding_box t0 t1 box0).2.min.x ≤ q.x ∧ q.x ≤ (H.bounding_box t0 t1 box0).2.max.x) ∧
      ((H.bounding_box t0 t1 box0).2.min.y ≤ q.y ∧ q.y ≤ (H.bounding_box t0 t1 box0).2.max.y) ∧
      ((H.bounding_box t0 t1 box0).2.min.z ≤ q.z ∧ q.z ≤ (H.bounding_box t0 t1 box0).2.max.z) := by
  induction H generalizing r t0 t1 box0 with
  | xy_rect x0 x1 y0 y1 k mp =>
      simp only [hitable.axis_direction] at hd
      rw [hit_xy_rect, xy_rect_hit_of_ne_zero _ _ _ _ _ _ _ _ _ _ hd] at hs ⊢
      split_ifs at hs ⊢ with h1 h2
      simp only [not_or, not_lt] at h2
      obtain ⟨hx0, hx1, hy0, hy1⟩ := h2
      refine ⟨rfl, ⟨_, _, _⟩, rfl, ?_⟩
      simp only [hitable.bounding_box, aabb.min, aabb.max, plane_coordinate k _ _ hd]
      refine ⟨⟨hx0, hx1⟩, ⟨hy0, hy1⟩, ?_, ?_⟩ <;> norm_num
  | xz_rect x0 x1 z0 z1 k mp =>
      simp only [hitable.axis_direction] at hd
      rw [hit_xz_rect, xz_rect_hit_of_ne_zero _ _ _ _ _ _ _ _ _ _ hd] at hs ⊢
      split_ifs at hs ⊢ with h1 h2
      simp only [not_or, not_lt] at h2
      obtain ⟨hx0, hx1, hz0, hz1⟩ := h2
      refine ⟨rfl, ⟨_, _, _⟩, rfl, ?_⟩
      simp only [hitable.bounding_box, aabb.min, aabb.max, plane_coordinate k _ _ hd]
      refine ⟨⟨hx0, hx1⟩, ⟨?_, ?_⟩, hz0, hz1⟩ <;> norm_num
  | yz_rect y0 y1 z0 z1 k mp =>
      simp only [hitable.axis_direction] at hd
      rw [hit_yz_rect, yz_rect_hit_of_ne_zero _ _ _ _ _ _ _ _ _ _ hd] at hs ⊢
      split_ifs at hs ⊢ with h1 h2
      simp only [not_or, not_lt] at h2
      obtain ⟨hy0, hy1, hz0, hz1⟩ := h2
      refine ⟨rfl, ⟨_, _, _⟩, rfl, ?_⟩
      simp only [hitable.bounding_box, aabb.min, aabb.max, plane_coordinate k _ _ hd]
      refine ⟨⟨?_, ?_⟩, ⟨hy0, hy1⟩, hz0, hz1⟩ <;> norm_num
  | flip_normals ptr ih =>
      simp only [hitable.axis_direction] at hd
      rw [hit_flip_normals] at hs ⊢
      by_cases h : (ptr.hit r t_min t_max rec).1 = true
      · rw [if_pos h, bounding_box_flip_normals]
        exact ih hH hc r t0 t1 box0 hd h
      · simp [h] at hs
  | translate ptr offset ih =>
      simp only [hitable.axis_direction] at hd
      rw [hit_translate] at hs ⊢
      by_cases h : (ptr.hit (translate_moved_r offset r) t_min t_max rec).1 = true
      · obtain ⟨hb, q, hq, hx, hy, hz⟩ := ih hH hc _ t0 t1 box0 hd h
        rw [if_pos h, bounding_box_translate, if_pos hb]
        refine ⟨rfl, q + offset, ?_, ?_⟩
        · show (ptr.hit (translate_moved_r offset r) t_min t_max rec).2.p + offset.lift = _
          rw [hq]
          rfl
        · simp only [aabb.min, aabb.max, vec3_add_def] at hx hy hz ⊢
          exact ⟨⟨by linarith [hx.1], by linarith [hx.2]⟩, ⟨by linarith [hy.1], by linarith [hy.2]⟩,
            by linarith [hz.1], by linarith [hz.2]⟩
      · simp [h] at hs
  | rotate_y ptr s c hasbox bbox ih =>
      simp only [hitable.axis_direction] at hd
      obtain ⟨hc1, bbox0, hinit⟩ := hc
      simp only [rotate_y_init, hitable.rotate_y.injEq, true_and] at hinit
      obtain ⟨hhas, hbox⟩ := hinit
      rw [hit_rotate_y] at hs ⊢
      by_cases h : (ptr.hit (rotate_y_rotated_r s c r) t_min t_max rec).1 = true
      · obtain ⟨hb, q, hq, hx, hy, hz⟩ := ih hH hc1 _ 0 1 bbox0 hd h
        rw [if_pos h, bounding_box_rotate_y]
        refine ⟨hhas.trans hb, ⟨c * q.x + s * q.z, q.y, -s * q.x + c * q.z⟩, ?_, ?_⟩
        · show (rotate_y_back s c _).p = _
          simp only [rotate_y_back, hq, vec3.lift, float.fin_mul_fin, float.fin_add_fin]
        · rw [hbox]
          exact rotate_y_corners_enclose s c _ q hx hy hz
      · simp [h] at hs
  | other hit bb => exact absurd hH (by simp [hitable.from_rects])

/-- Claim C10: for every object `H` built from the rectangles by nesting
`flip_normals`, `translate` and `rotate_y` (each `rotate_y` holding the box its
constructor computed), every time range `(t0,t1)`, every ray whose direction
component along the underlying rectangle's plane axis is nonzero, and every
interval: if `H.hit` succeeds with the record `rec`, then
`H.bounding_box(t0,t1)` reports a box `B`, and `B.min <= rec.p <= B.max` in
each component. -/
theorem hit_point_inside_bounding_box (H : hitable K) (hH : H.from_rects) (hc : H.constructed)
    (t0 t1 : K) (box0 : aabb K) (r : ray K) (hd : H.axis_direction r ≠ 0) (t_min t_max : K)
    (rec : hit_record K) (hs : (H.hit r t_min t_max rec).1 = true) :
    (H.bounding_box t0 t1 box0).1 = true ∧
    (H.bounding_box t0 t1 box0).2.encloses (H.hit r t_min t_max rec).2.p := by
  obtain ⟨hb, q, hq, hx, hy, hz⟩ := hit_point_in_box H hH hc r t0 t1 box0 t_min t_max rec hd hs
  rw [hq]
  simp only [aabb.encloses, vec3.lift, float.fin_le_fin]
  exact ⟨hb, hx, hy, hz⟩

theorem hit_point_inside_bounding_box_witness :
    ((rotate_y_init (hitable.translate (hitable.flip_normals
          (hitable.xy_rect (3 : ℚ) 5 1 3 2 7)) ⟨0, 0, 5⟩) (3 / 5) (4 / 5) ⟨⟨0, 0, 0⟩, ⟨0, 0, 0⟩⟩).hit
        ⟨⟨16 / 5, 2, -12 / 5⟩, ⟨3 / 5, 0, 4 / 5⟩, 0⟩ 0 100
        ⟨.fin 11, .fin 12, .fin 13, ⟨.fin 14, .fin 15, .fin 16⟩,
          ⟨.fin 17, .fin 18, .fin 19⟩, 20⟩).1 = true ∧
    ((rotate_y_init (hitable.translate (hitable.flip_normals
          (hitable.xy_rect (3 : ℚ) 5 1 3 2 7)) ⟨0, 0, 5⟩) (3 / 5) (4 / 5) ⟨⟨0, 0, 0⟩, ⟨0, 0, 0⟩⟩).bounding_box 0 1 ⟨⟨0, 0, 0⟩, ⟨0, 0, 0⟩⟩).2.encloses
      ((rotate_y_init (hitable.translate (hitable.flip_normals
          (hitable.xy_rect (3 : ℚ) 5 1 3 2 7)) ⟨0, 0, 5⟩) (3 / 5) (4 / 5) ⟨⟨0, 0, 0⟩, ⟨0, 0, 0⟩⟩).hit
        ⟨⟨16 / 5, 2, -12 / 5⟩, ⟨3 / 5, 0, 4 / 5⟩, 0⟩ 0 100
        ⟨.fin 11, .fin 12, .fin 13, ⟨.fin 14, .fin 15, .fin 16⟩,
          ⟨.fin 17, .fin 18, .fin 19⟩, 20⟩).2.p := by
  have hs : ((rotate_y_init (hitable.translate (hitable.flip_normals
          (hitable.xy_rect (3 : ℚ) 5 1 3 2 7)) ⟨0, 0, 5⟩) (3 / 5) (4 / 5) ⟨⟨0, 0, 0⟩, ⟨0, 0, 0⟩⟩).hit
        ⟨⟨16 / 5, 2, -12 / 5⟩, ⟨3 / 5, 0, 4 / 5⟩, 0⟩ 0 100
        ⟨.fin 11, .fin 12, .fin 13, ⟨.fin 14, .fin 15, .fin 16⟩,
          ⟨.fin 17, .fin 18, .fin 19⟩, 20⟩).1 = true := by
    simp [rotate_y_init, hit_rotate_y, hit_translate, hit_flip_normals, hit_xy_rect, xy_rect_hit,
      ray.origin, ray.direction, ray.time, rotate_y_rotated_r, translate_moved_r, vec3_sub_def]
    norm_num
  refine ⟨hs, (hit_point_inside_bounding_box _ ?_ ?_ 0 1 _ _ ?_ 0 100 _ hs).2⟩
  · simp [rotate_y_init, hitable.from_rects]
  · exact ⟨by simp [hitable.constructed], _, rfl⟩
  · simp [rotate_y_init, hitable.axis_direction, rotate_y_rotated_r, translate_moved_r,
      ray.direction]
    norm_num

/-! ## `bounding_box` of the decorators and of the rectangles -/

/-- Claim C11: for every wrapped object `S` whose `bounding_box` returns false
for all arguments, `flip_normals(S)`, `translate(S,O)` for every offset and
`rotate_y(S,angle)` for every angle return false from `bounding_box` for every
`(t0,t1)`; and, for every `S`, the constructor of `rotate_y` builds an object
whose member `hasbox` is false exactly when `S.bounding_box(0,1)` returned
false. -/
theorem no_box_propagates (S : hitable K) (sinf cosf : K → K) (O : vec3 K) (angle : K)
    (bbox0 : aabb K) :
    ((∀ t0 t1 box, (S.bounding_box t0 t1 box).1 = false) →
      ∀ t0 t1 box,
        ((hitable.flip_normals S).bounding_box t0 t1 box).1 = false ∧
        ((hitable.translate S O).bounding_box t0 t1 box).1 = false ∧
        ((rotate_y_new sinf cosf S angle bbox0).bounding_box t0 t1 box).1 = false) ∧
    (∃ hasbox bbox,
      rotate_y_new sinf cosf S angle bbox0
        = hitable.rotate_y S (sinf ((3.1428 / 180) * angle)) (cosf ((3.1428 / 180) * angle))
            hasbox bbox ∧
      (hasbox = false ↔ (S.bounding_box 0 1 bbox0).1 = false)) := by
  refine ⟨fun h t0 t1 box => ⟨?_, ?_, ?_⟩, ?_⟩
  · rw [bounding_box_flip_normals]
    exact h t0 t1 box
  · rw [bounding_box_translate, if_neg (by simp [h t0 t1 box])]
  · simp only [rotate_y_new, rotate_y_init, bounding_box_rotate_y]
    exact h 0 1 bbox0
  · exact ⟨_, _, rfl, Iff.rfl⟩

theorem no_box_propagates_witness :
    (∀ t0 t1 box,
      ((hitable.flip_normals (hitable.other (fun _ _ _ rec => (false, rec))
          (fun _ _ box => (false, box)))).bounding_box t0 t1 box).1 = false ∧
      ((hitable.translate (hitable.other (fun _ _ _ rec => (false, rec))
          (fun _ _ box => (false, box))) (⟨1, 2, 3⟩ : vec3 ℚ)).bounding_box t0 t1 box).1 = false ∧
      ((rotate_y_new circle_sin circle_cos (hitable.other (fun _ _ _ rec => (false, rec))
          (fun _ _ box => (false, box))) 30 ⟨⟨0, 0, 0⟩, ⟨0, 0, 0⟩⟩).bounding_box t0 t1 box).1
        = false) :=
  (no_box_propagates (hitable.other (fun _ _ _ rec => (false, rec)) (fun _ _ box => (false, box)))
    circle_sin circle_cos (⟨1, 2, 3⟩ : vec3 ℚ) 30 ⟨⟨0, 0, 0⟩, ⟨0, 0, 0⟩⟩).1
    (fun _ _ _ => by simp [hitable.bounding_box])

/-- In exact arithmetic, for each of the three rectangles and every `(t0,t1)`,
`bounding_box` returns true with the box made of the two in-plane extents and
of `[k - 0.0001, k + 0.0001]` on the plane axis, whatever `t0`, `t1` and the
box passed in. -/
theorem rect_bounding_box_exact (a0 a1 b0 b1 k : K) (mp : material_ptr) (t0 t1 : K)
    (box : aabb K) :
    (hitable.xy_rect a0 a1 b0 b1 k mp).bounding_box t0 t1 box
        = (true, ⟨⟨a0, b0, k - 0.0001⟩, ⟨a1, b1, k + 0.0001⟩⟩) ∧
    (hitable.xz_rect a0 a1 b0 b1 k mp).bounding_box t0 t1 box
        = (true, ⟨⟨a0, k - 0.0001, b0⟩, ⟨a1, k + 0.0001, b1⟩⟩) ∧
    (hitable.yz_rect a0 a1 b0 b1 k mp).bounding_box t0 t1 box
        = (true, ⟨⟨k - 0.0001, a0, b0⟩, ⟨k + 0.0001, a1, b1⟩⟩) := by
  simp only [hitable.bounding_box, and_self]

/-- Claim C15: for every wrapped object `S`, offset `O` and `(t0,t1)`,
`translate(S,O).bounding_box(t0,t1)` returns true exactly when
`S.bounding_box(t0,t1)` does, and when `S` reports the box `(min,max)` the
result is the box `(min + O, max + O)`. -/
theorem translate_bounding_box (S : hitable K) (O : vec3 K) (t0 t1 : K) (box : aabb K) :
    ((hitable.translate S O).bounding_box t0 t1 box).1 = (S.bounding_box t0 t1 box).1 ∧
    ((S.bounding_box t0 t1 box).1 = true →
      ((hitable.translate S O).bounding_box t0 t1 box).2
        = ⟨⟨(S.bounding_box t0 t1 box).2.min.x + O.x, (S.bounding_box t0 t1 box).2.min.y + O.y,
            (S.bounding_box t0 t1 box).2.min.z + O.z⟩,
           ⟨(S.bounding_box t0 t1 box).2.max.x + O.x, (S.bounding_box t0 t1 box).2.max.y + O.y,
            (S.bounding_box t0 t1 box).2.max.z + O.z⟩⟩) := by
  rw [bounding_box_translate]
  by_cases h : (S.bounding_box t0 t1 box).1 = true
  · rw [if_pos h]
    exact ⟨h.symm, fun _ => rfl⟩
  · rw [if_neg h]
    exact ⟨(Bool.not_eq_true _ ▸ h).symm, fun h2 => absurd h2 h⟩

theorem translate_bounding_box_witness :
    ((hitable.translate (hitable.xy_rect (3 : ℚ) 5 1 3 2 7) ⟨0, 0, 5⟩).bounding_box 0 1
        ⟨⟨0, 0, 0⟩, ⟨0, 0, 0⟩⟩).1 = true ∧
    ((hitable.translate (hitable.xy_rect (3 : ℚ) 5 1 3 2 7) ⟨0, 0, 5⟩).bounding_box 0 1
        ⟨⟨0, 0, 0⟩, ⟨0, 0, 0⟩⟩).2 = ⟨⟨3, 1, 69999 / 10000⟩, ⟨5, 3, 70001 / 10000⟩⟩ := by
  have hS : (hitable.xy_rect (3 : ℚ) 5 1 3 2 7).bounding_box 0 1 ⟨⟨0, 0, 0⟩, ⟨0, 0, 0⟩⟩
      = (true, ⟨⟨3, 1, 2 - 0.0001⟩, ⟨5, 3, 2 + 0.0001⟩⟩) := by
    rw [hitable.bounding_box]
  obtain ⟨h1, h2⟩ := translate_bounding_box (hitable.xy_rect (3 : ℚ) 5 1 3 2 7) ⟨0, 0, 5⟩ 0 1
    ⟨⟨0, 0, 0⟩, ⟨0, 0, 0⟩⟩
  refine ⟨h1.trans (by rw [hS]), ?_⟩
  rw [h2 (by rw [hS]), hS]
  norm_num [aabb.min, aabb.max]

/-- Claim C12, the code at a ray lying in the rectangle's plane: for the
rectangle `x` in `[3,5]`, `y` in `[1,3]`, `k = 2`, the ray from `(4,2,2)` with
direction `(1,0,0)` (direction component along the plane axis zero, origin on
the plane) and the interval `[0,100]`, the division gives NaN, neither
`t < t0` nor `t > t1` holds for it, and `xy_rect::hit` returns success, with a
record of NaN values. -/
theorem hit_succeeds_on_ray_in_plane :
    ((float.fin 2 - float.fin 2) / float.fin 0 : float ℚ) = float.nan ∧
    ¬ ((float.nan : float ℚ) < float.fin 0) ∧
    ¬ ((float.nan : float ℚ) > float.fin 100) ∧
    (hitable.xy_rect (3 : ℚ) 5 1 3 2 7).hit ⟨⟨4, 2, 2⟩, ⟨1, 0, 0⟩, 0⟩ 0 100
        ⟨.fin 11, .fin 12, .fin 13, ⟨.fin 14, .fin 15, .fin 16⟩,
          ⟨.fin 17, .fin 18, .fin 19⟩, 20⟩ =
      (true, ⟨.nan, .nan, .nan, ⟨.nan, .nan, .nan⟩, ⟨.fin 0, .fin 0, .fin 1⟩, 7⟩) := by
  refine ⟨?_, float.not_nan_lt _, float.not_lt_nan _, ?_⟩
  · simp [float.inf_times]
  · simp [hit_xy_rect, xy_rect_hit, ray.origin, ray.direction, ray.point_at_parameter,
      float.inf_times]

/-- Claim C13: for every object built from rectangles with `lo <= hi` extents by
nesting `flip_normals`, `translate` and `rotate_y` (each `rotate_y` holding the
box its constructor computed) and every `(t0,t1)`: when `bounding_box` reports
a box, its corners satisfy `min <= max` on the three axes. -/
theorem bounding_box_min_le_max (H : hitable K) (hH : H.from_rects) (hc : H.constructed)
    (he : H.extents_ordered) (t0 t1 : K) (box0 : aabb K)
    (hb : (H.bounding_box t0 t1 box0).1 = true) :
    (H.bounding_box t0 t1 box0).2.min.x ≤ (H.bounding_box t0 t1 box0).2.max.x ∧
    (H.bounding_box t0 t1 box0).2.min.y ≤ (H.bounding_box t0 t1 box0).2.max.y ∧
    (H.bounding_box t0 t1 box0).2.min.z ≤ (H.bounding_box t0 t1 box0).2.max.z := by
  have hk : ∀ k : K, k - 0.0001 ≤ k + 0.0001 := fun k => by
    have h0 : (0 : K) < 0.0001 := by norm_num
    linarith
  induction H generalizing t0 t1 box0 with
  | xy_rect x0 x1 y0 y1 k mp =>
      simp only [hitable.bounding_box, aabb.min, aabb.max]
      exact ⟨he.1, he.2, hk k⟩
  | xz_rect x0 x1 z0 z1 k mp =>
      simp only [hitable.bounding_box, aabb.min, aabb.max]
      exact ⟨he.1, hk k, he.2⟩
  | yz_rect y0 y1 z0 z1 k mp =>
      simp only [hitable.bounding_box, aabb.min, aabb.max]
      exact ⟨hk k, he.1, he.2⟩
  | flip_normals ptr ih =>
      rw [bounding_box_flip_normals] at hb ⊢
      exact ih hH hc he t0 t1 box0 hb
  | translate ptr offset ih =>
      rw [bounding_box_translate] at hb ⊢
      by_cases h : (ptr.bounding_box t0 t1 box0).1 = true
      · obtain ⟨hx, hy, hz⟩ := ih hH hc he t0 t1 box0 h
        rw [if_pos h]
        simp only [aabb.min, aabb.max, vec3_add_def] at hx hy hz ⊢
        exact ⟨by linarith, by linarith, by linarith⟩
      · simp [h] at hb
  | rotate_y ptr s c hasbox bbox ih =>
      obtain ⟨-, bbox0, hinit⟩ := hc
      simp only [rotate_y_init, hitable.rotate_y.injEq, true_and] at hinit
      rw [bounding_box_rotate_y, hinit.2]
      obtain ⟨⟨h1, h2⟩, ⟨h3, h4⟩, h5, h6⟩ :=
        rotate_y_corners_bound s c (ptr.bounding_box 0 1 bbox0).2 0 0 0 (by norm_num)
          (by norm_num) (by norm_num)
      exact ⟨le_trans h1 h2, le_trans h3 h4, le_trans h5 h6⟩
  | other hit bb => exact absurd hH (by simp [hitable.from_rects])

theorem bounding_box_min_le_max_witness :
    ((rotate_y_init (hitable.translate (hitable.flip_normals
          (hitable.xy_rect (3 : ℚ) 5 1 3 2 7)) ⟨0, 0, 5⟩) (3 / 5) (4 / 5)
          ⟨⟨0, 0, 0⟩, ⟨0, 0, 0⟩⟩).bounding_box 0 1 ⟨⟨0, 0, 0⟩, ⟨0, 0, 0⟩⟩).2.min.x ≤
      ((rotate_y_init (hitable.translate (hitable.flip_normals
          (hitable.xy_rect (3 : ℚ) 5 1 3 2 7)) ⟨0, 0, 5⟩) (3 / 5) (4 / 5)
          ⟨⟨0, 0, 0⟩, ⟨0, 0, 0⟩⟩).bounding_box 0 1 ⟨⟨0, 0, 0⟩, ⟨0, 0, 0⟩⟩).2.max.x ∧
    ((rotate_y_init (hitable.translate (hitable.flip_normals
          (hitable.xy_rect (3 : ℚ) 5 1 3 2 7)) ⟨0, 0, 5⟩) (3 / 5) (4 / 5)
          ⟨⟨0, 0, 0⟩, ⟨0, 0, 0⟩⟩).bounding_box 0 1 ⟨⟨0, 0, 0⟩, ⟨0, 0, 0⟩⟩).2.min.y ≤
      ((rotate_y_init (hitable.translate (hitable.flip_normals
          (hitable.xy_rect (3 : ℚ) 5 1 3 2 7)) ⟨0, 0, 5⟩) (3 / 5) (4 / 5)
          ⟨⟨0, 0, 0⟩, ⟨0, 0, 0⟩⟩).bounding_box 0 1 ⟨⟨0, 0, 0⟩, ⟨0, 0, 0⟩⟩).2.max.y ∧
    ((rotate_y_init (hitable.translate (hitable.flip_normals
          (hitable.xy_rect (3 : ℚ) 5 1 3 2 7)) ⟨0, 0, 5⟩) (3 / 5) (4 / 5)
          ⟨⟨0, 0, 0⟩, ⟨0, 0, 0⟩⟩).bounding_box 0 1 ⟨⟨0, 0, 0⟩, ⟨0, 0, 0⟩⟩).2.min.z ≤
      ((rotate_y_init (hitable.translate (hitable.flip_normals
          (hitable.xy_rect (3 : ℚ) 5 1 3 2 7)) ⟨0, 0, 5⟩) (3 / 5) (4 / 5)
          ⟨⟨0, 0, 0⟩, ⟨0, 0, 0⟩⟩).bounding_box 0 1 ⟨⟨0, 0, 0⟩, ⟨0, 0, 0⟩⟩).2.max.z :=
  bounding_box_min_le_max
    (rotate_y_init (hitable.translate (hitable.flip_normals
      (hitable.xy_rect (3 : ℚ) 5 1 3 2 7)) ⟨0, 0, 5⟩) (3 / 5) (4 / 5) ⟨⟨0, 0, 0⟩, ⟨0, 0, 0⟩⟩)
    (by simp [rotate_y_init, hitable.from_rects])
    (by exact ⟨by simp [hitable.constructed], _, rfl⟩)
    (by norm_num [rotate_y_init, hitable.extents_ordered]) 0 1 ⟨⟨0, 0, 0⟩, ⟨0, 0, 0⟩⟩
    (by simp [rotate_y_init, bounding_box_rotate_y, bounding_box_translate,
      bounding_box_flip_normals, hitable.bounding_box])

/-- Claim C16: for every wrapped object `S` that reports a box `B` for the time
range `[0,1]`, every angle and every point `q` with `B.min <= q <= B.max`, the
forward rotation of `q`, `(cos*q.x + sin*q.z, q.y, -sin*q.x + cos*q.z)`, lies
in the box that the constructor of `rotate_y(S,angle)` stores and that
`bounding_box` returns, with the flag true. -/
theorem rotate_y_box_encloses_rotation (sinf cosf : K → K) (S : hitable K) (angle : K)
    (bbox0 : aabb K) (q : vec3 K) (t0 t1 : K) (box : aabb K)
    (hb : (S.bounding_box 0 1 bbox0).1 = true)
    (hx : (S.bounding_box 0 1 bbox0).2.min.x ≤ q.x ∧ q.x ≤ (S.bounding_box 0 1 bbox0).2.max.x)
    (hy : (S.bounding_box 0 1 bbox0).2.min.y ≤ q.y ∧ q.y ≤ (S.bounding_box 0 1 bbox0).2.max.y)
    (hz : (S.bounding_box 0 1 bbox0).2.min.z ≤ q.z ∧ q.z ≤ (S.bounding_box 0 1 bbox0).2.max.z) :
    ((rotate_y_new sinf cosf S angle bbox0).bounding_box t0 t1 box).1 = true ∧
    (((rotate_y_new sinf cosf S angle bbox0).bounding_box t0 t1 box).2.min.x
        ≤ cosf ((3.1428 / 180) * angle) * q.x + sinf ((3.1428 / 180) * angle) * q.z ∧
      cosf ((3.1428 / 180) * angle) * q.x + sinf ((3.1428 / 180) * angle) * q.z
        ≤ ((rotate_y_new sinf cosf S angle bbox0).bounding_box t0 t1 box).2.max.x) ∧
    (((rotate_y_new sinf cosf S angle bbox0).bounding_box t0 t1 box).2.min.y ≤ q.y ∧
      q.y ≤ ((rotate_y_new sinf cosf S angle bbox0).bounding_box t0 t1 box).2.max.y) ∧
    (((rotate_y_new sinf cosf S angle bbox0).bounding_box t0 t1 box).2.min.z
        ≤ -sinf ((3.1428 / 180) * angle) * q.x + cosf ((3.1428 / 180) * angle) * q.z ∧
      -sinf ((3.1428 / 180) * angle) * q.x + cosf ((3.1428 / 180) * angle) * q.z
        ≤ ((rotate_y_new sinf cosf S angle bbox0).bounding_box t0 t1 box).2.max.z) := by
  simp only [rotate_y_new, rotate_y_init, bounding_box_rotate_y]
  exact ⟨hb, rotate_y_corners_enclose _ _ _ q hx hy hz⟩

/-! ## The point and the normal of a reported hit -/

theorem float_add_fin_add_fin (x : float K) (a b : K) :
    x + float.fin a + float.fin b = x + float.fin (a + b) := by
  cases x with
  | fin y => simp only [float.fin_add_fin, add_assoc]
  | pinf => rfl
  | ninf => rfl
  | nan => rfl

/-- The parameter and the point reported by a successful `hit` of an object built
from the rectangles, with rotations of determinant one: either `t` is a number
and `p` is the point `origin + t * direction` of the ray given to the object,
or `t` and the three components of `p` are NaN. -/
theorem hit_point_on_ray_cases (H : hitable K) (hH : H.from_rects) (hu : H.unit_rotations)
    (r : ray K) (t_min t_max : K) (rec : hit_record K)
    (hs : (H.hit r t_min t_max rec).1 = true) :
    (∃ t : K, (H.hit r t_min t_max rec).2.t = float.fin t ∧
      (H.hit r t_min t_max rec).2.p =
        ⟨float.fin (r.origin.x + t * r.direction.x), float.fin (r.origin.y + t * r.direction.y),
         float.fin (r.origin.z + t * r.direction.z)⟩) ∨
    ((H.hit r t_min t_max rec).2.t = float.nan ∧
      (H.hit r t_min t_max rec).2.p = ⟨float.nan, float.nan, float.nan⟩) := by
  induction H generalizing r with
  | xy_rect a0 a1 b0 b1 k mp =>
      rw [hit_xy_rect] at hs ⊢
      by_cases hd : r.direction.z = 0
      · right
        rw [xy_rect_hit_of_eq_zero _ _ _ _ _ _ _ _ _ _ hd] at hs ⊢
        split_ifs at hs ⊢
        exact ⟨rfl, rfl⟩
      · left
        rw [xy_rect_hit_of_ne_zero _ _ _ _ _ _ _ _ _ _ hd] at hs ⊢
        split_ifs at hs ⊢
        exact ⟨_, rfl, rfl⟩
  | xz_rect a0 a1 b0 b1 k mp =>
      rw [hit_xz_rect] at hs ⊢
      by_cases hd : r.direction.y = 0
      · right
        rw [xz_rect_hit_of_eq_zero _ _ _ _ _ _ _ _ _ _ hd] at hs ⊢
        split_ifs at hs ⊢
        exact ⟨rfl, rfl⟩
      · left
        rw [xz_rect_hit_of_ne_zero _ _ _ _ _ _ _ _ _ _ hd] at hs ⊢
        split_ifs at hs ⊢
        exact ⟨_, rfl, rfl⟩
  | yz_rect a0 a1 b0 b1 k mp =>
      rw [hit_yz_rect] at hs ⊢
      by_cases hd : r.direction.x = 0
      · right
        rw [yz_rect_hit_of_eq_zero _ _ _ _ _ _ _ _ _ _ hd] at hs ⊢
        split_ifs at hs ⊢
        exact ⟨rfl, rfl⟩
      · left
        rw [yz_rect_hit_of_ne_zero _ _ _ _ _ _ _ _ _ _ hd] at hs ⊢
        split_ifs at hs ⊢
        exact ⟨_, rfl, rfl⟩
  | flip_normals ptr ih =>
      rw [hit_flip_normals] at hs ⊢
      by_cases h : (ptr.hit r t_min t_max rec).1 = true
      · rw [if_pos h]
        exact ih hH hu r h
      · simp [h] at hs
  | translate ptr offset ih =>
      rw [hit_translate] at hs ⊢
      by_cases h : (ptr.hit (translate_moved_r offset r) t_min t_max rec).1 = true
      · rw [if_pos h]
        rcases ih hH hu _ h with ⟨t, ht, hp⟩ | ⟨ht, hp⟩
        · left
          refine ⟨t, ht, ?_⟩
          show (ptr.hit (translate_moved_r offset r) t_min t_max rec).2.p + offset.lift = _
          rw [hp]
          simp only [translate_moved_r, ray.origin, ray.direction, ray.time, vec3_sub_def,
            vec3_add_def, vec3.lift, float.fin_add_fin, vec3.mk.injEq, float.fin.injEq]
          exact ⟨by ring, by ring, by ring⟩
        · right
          refine ⟨ht, ?_⟩
          show (ptr.hit (translate_moved_r offset r) t_min t_max rec).2.p + offset.lift = _
          rw [hp]
          simp only [vec3_add_def, vec3.lift, float.nan_add]
      · simp [h] at hs
  | rotate_y ptr s c hasbox bbox ih =>
      obtain ⟨hu1, hsc⟩ := hu
      rw [hit_rotate_y] at hs ⊢
      by_cases h : (ptr.hit (rotate_y_rotated_r s c r) t_min t_max rec).1 = true
      · rw [if_pos h]
        rcases ih hH hu1 _ h with ⟨t, ht, hp⟩ | ⟨ht, hp⟩
        · left
          refine ⟨t, ht, ?_⟩
          show (rotate_y_back s c _).p = _
          simp only [rotate_y_back, hp]
          simp only [rotate_y_rotated_r, ray.origin, ray.direction,
            float.fin_mul_fin, float.fin_add_fin, vec3.mk.injEq, float.fin.injEq, true_and]
          constructor
          · linear_combination (r.A.x + t * r.B.x) * hsc
          · linear_combination (r.A.z + t * r.B.z) * hsc
        · right
          refine ⟨ht, ?_⟩
          show (rotate_y_back s c _).p = _
          simp only [rotate_y_back, hp, float.mul_nan, float.add_nan]
      · simp [h] at hs
  | other hit bb => exact absurd hH (by simp [hitable.from_rects])

/-- Claim C18: for every object built from the rectangles by nesting
`flip_normals`, `translate` and `rotate_y`, each `rotate_y` with
`sin_theta^2 + cos_theta^2 = 1`, every ray `R` and interval: when `hit`
succeeds, the returned point is the point of the ray `R` itself at the returned
parameter, `rec.p = R.origin + rec.t * R.direction`. -/
theorem hit_point_on_original_ray (H : hitable K) (hH : H.from_rects) (hu : H.unit_rotations)
    (R : ray K) (t_min t_max : K) (rec : hit_record K)
    (hs : (H.hit R t_min t_max rec).1 = true) :
    (H.hit R t_min t_max rec).2.p =
      ⟨float.fin R.origin.x + (H.hit R t_min t_max rec).2.t * float.fin R.direction.x,
       float.fin R.origin.y + (H.hit R t_min t_max rec).2.t * float.fin R.direction.y,
       float.fin R.origin.z + (H.hit R t_min t_max rec).2.t * float.fin R.direction.z⟩ := by
  rcases hit_point_on_ray_cases H hH hu R t_min t_max rec hs with ⟨t, ht, hp⟩ | ⟨ht, hp⟩
  · rw [hp, ht]
    simp only [float.fin_mul_fin, float.fin_add_fin]
  · rw [hp, ht]
    simp only [float.nan_mul, float.add_nan]

/-- The hit of a rotated, translated and flipped rectangle: `xy_rect` with `x` in
`[3,5]`, `y` in `[1,3]`, `k = 2`, flipped, moved by `(0,0,5)` and rotated with
`sin_theta = 3/5`, `cos_theta = 4/5`, by the ray from `(16/5, 2, -12/5)` with
direction `(3/5, 0, 4/5)`. -/
theorem nested_scenario_hit (rec : hit_record ℚ) :
    (hitable.rotate_y (hitable.translate (hitable.flip_normals
          (hitable.xy_rect (3 : ℚ) 5 1 3 2 7)) ⟨0, 0, 5⟩) (3 / 5) (4 / 5) true
          ⟨⟨0, 0, 0⟩, ⟨0, 0, 0⟩⟩).hit
        ⟨⟨16 / 5, 2, -12 / 5⟩, ⟨3 / 5, 0, 4 / 5⟩, 0⟩ 0 100 rec =
      (true, ⟨.fin 7, .fin (1 / 2), .fin (1 / 2), ⟨.fin (37 / 5), .fin 2, .fin (16 / 5)⟩,
        ⟨.fin (-3 / 5), .fin 0, .fin (-4 / 5)⟩, 7⟩) := by
  simp [hit_rotate_y, hit_translate, hit_flip_normals, hit_xy_rect, xy_rect_hit, ray.origin,
    ray.direction, ray.time, ray.point_at_parameter, rotate_y_rotated_r, rotate_y_back,
    translate_moved_r, vec3_sub_def, vec3_add_def, vec3_neg_def, vec3.lift]
  norm_num

theorem hit_point_on_original_ray_witness :
    ((hitable.rotate_y (hitable.translate (hitable.flip_normals
          (hitable.xy_rect (3 : ℚ) 5 1 3 2 7)) ⟨0, 0, 5⟩) (3 / 5) (4 / 5) true
          ⟨⟨0, 0, 0⟩, ⟨0, 0, 0⟩⟩).hit
        ⟨⟨16 / 5, 2, -12 / 5⟩, ⟨3 / 5, 0, 4 / 5⟩, 0⟩ 0 100
        ⟨.fin 11, .fin 12, .fin 13, ⟨.fin 14, .fin 15, .fin 16⟩,
          ⟨.fin 17, .fin 18, .fin 19⟩, 20⟩).1 = true ∧
    ((hitable.rotate_y (hitable.translate (hitable.flip_normals
          (hitable.xy_rect (3 : ℚ) 5 1 3 2 7)) ⟨0, 0, 5⟩) (3 / 5) (4 / 5) true
          ⟨⟨0, 0, 0⟩, ⟨0, 0, 0⟩⟩).hit
        ⟨⟨16 / 5, 2, -12 / 5⟩, ⟨3 / 5, 0, 4 / 5⟩, 0⟩ 0 100
        ⟨.fin 11, .fin 12, .fin 13, ⟨.fin 14, .fin 15, .fin 16⟩,
          ⟨.fin 17, .fin 18, .fin 19⟩, 20⟩).2.p =
      ⟨float.fin (16 / 5) + ((hitable.rotate_y (hitable.translate (hitable.flip_normals
          (hitable.xy_rect (3 : ℚ) 5 1 3 2 7)) ⟨0, 0, 5⟩) (3 / 5) (4 / 5) true
          ⟨⟨0, 0, 0⟩, ⟨0, 0, 0⟩⟩).hit
        ⟨⟨16 / 5, 2, -12 / 5⟩, ⟨3 / 5, 0, 4 / 5⟩, 0⟩ 0 100
        ⟨.fin 11, .fin 12, .fin 13, ⟨.fin 14, .fin 15, .fin 16⟩,
          ⟨.fin 17, .fin 18, .fin 19⟩, 20⟩).2.t * float.fin (3 / 5),
       float.fin 2 + ((hitable.rotate_y (hitable.translate (hitable.flip_normals
          (hitable.xy_rect (3 : ℚ) 5 1 3 2 7)) ⟨0, 0, 5⟩) (3 / 5) (4 / 5) true
          ⟨⟨0, 0, 0⟩, ⟨0, 0, 0⟩⟩).hit
        ⟨⟨16 / 5, 2, -12 / 5⟩, ⟨3 / 5, 0, 4 / 5⟩, 0⟩ 0 100
        ⟨.fin 11, .fin 12, .fin 13, ⟨.fin 14, .fin 15, .fin 16⟩,
          ⟨.fin 17, .fin 18, .fin 19⟩, 20⟩).2.t * float.fin 0,
       float.fin (-12 / 5) + ((hitable.rotate_y (hitable.translate (hitable.flip_normals
          (hitable.xy_rect (3 : ℚ) 5 1 3 2 7)) ⟨0, 0, 5⟩) (3 / 5) (4 / 5) true
          ⟨⟨0, 0, 0⟩, ⟨0, 0, 0⟩⟩).hit
        ⟨⟨16 / 5, 2, -12 / 5⟩, ⟨3 / 5, 0, 4 / 5⟩, 0⟩ 0 100
        ⟨.fin 11, .fin 12, .fin 13, ⟨.fin 14, .fin 15, .fin 16⟩,
          ⟨.fin 17, .fin 18, .fin 19⟩, 20⟩).2.t * float.fin (4 / 5)⟩ :=
  have hs : ((hitable.rotate_y (hitable.translate (hitable.flip_normals
          (hitable.xy_rect (3 : ℚ) 5 1 3 2 7)) ⟨0, 0, 5⟩) (3 / 5) (4 / 5) true
          ⟨⟨0, 0, 0⟩, ⟨0, 0, 0⟩⟩).hit
        ⟨⟨16 / 5, 2, -12 / 5⟩, ⟨3 / 5, 0, 4 / 5⟩, 0⟩ 0 100
        ⟨.fin 11, .fin 12, .fin 13, ⟨.fin 14, .fin 15, .fin 16⟩,
          ⟨.fin 17, .fin 18, .fin 19⟩, 20⟩).1 = true := by rw [nested_scenario_hit]
  ⟨hs, hit_point_on_original_ray _ (by simp [hitable.from_rects])
    (by norm_num [hitable.unit_rotations]) _ _ _ _ hs⟩

/-- The normal reported by a successful `hit` of an object built from the
rectangles, with rotations of determinant one, is a vector of numbers of
squared length 1. -/
theorem hit_normal_numbers (H : hitable K) (hH : H.from_rects) (hu : H.unit_rotations)
    (r : ray K) (t_min t_max : K) (rec : hit_record K)
    (hs : (H.hit r t_min t_max rec).1 = true) :
    ∃ n : vec3 K, (H.hit r t_min t_max rec).2.normal = n.lift ∧
      n.x ^ 2 + n.y ^ 2 + n.z ^ 2 = 1 := by
  induction H generalizing r with
  | xy_rect a0 a1 b0 b1 k mp =>
      rw [hit_xy_rect] at hs ⊢
      rw [(xy_rect_hit_fields a0 a1 b0 b1 k mp r t_min t_max rec hs).2.2.2]
      exact ⟨⟨0, 0, 1⟩, rfl, by norm_num⟩
  | xz_rect a0 a1 b0 b1 k mp =>
      rw [hit_xz_rect] at hs ⊢
      rw [(xz_rect_hit_fields a0 a1 b0 b1 k mp r t_min t_max rec hs).2.2.2]
      exact ⟨⟨0, 1, 0⟩, rfl, by norm_num⟩
  | yz_rect a0 a1 b0 b1 k mp =>
      rw [hit_yz_rect] at hs ⊢
      rw [(yz_rect_hit_fields a0 a1 b0 b1 k mp r t_min t_max rec hs).2.2.2]
      exact ⟨⟨1, 0, 0⟩, rfl, by norm_num⟩
  | flip_normals ptr ih =>
      rw [hit_flip_normals] at hs ⊢
      by_cases h : (ptr.hit r t_min t_max rec).1 = true
      · rw [if_pos h]
        obtain ⟨n, hn, h1⟩ := ih hH hu r h
        refine ⟨-n, ?_, ?_⟩
        · show -(ptr.hit r t_min t_max rec).2.normal = _
          rw [hn]
          rfl
        · simp only [vec3_neg_def, neg_sq]
          exact h1
      · simp [h] at hs
  | translate ptr offset ih =>
      rw [hit_translate] at hs ⊢
      by_cases h : (ptr.hit (translate_moved_r offset r) t_min t_max rec).1 = true
      · rw [if_pos h]
        exact ih hH hu _ h
      · simp [h] at hs
  | rotate_y ptr s c hasbox bbox ih =>
      obtain ⟨hu1, hsc⟩ := hu
      rw [hit_rotate_y] at hs ⊢
      by_cases h : (ptr.hit (rotate_y_rotated_r s c r) t_min t_max rec).1 = true
      · rw [if_pos h]
        obtain ⟨n, hn, h1⟩ := ih hH hu1 _ h
        refine ⟨⟨c * n.x + s * n.z, n.y, -s * n.x + c * n.z⟩, ?_, ?_⟩
        · show (rotate_y_back s c _).normal = _
          simp only [rotate_y_back, hn, vec3.lift, float.fin_mul_fin, float.fin_add_fin]
        · linear_combination (n.x ^ 2 + n.z ^ 2) * hsc + h1
      · simp [h] at hs
  | other hit bb => exact absurd hH (by simp [hitable.from_rects])

/-- Claim C19: for every object built from the rectangles by nesting
`flip_normals`, `translate` and `rotate_y`, each `rotate_y` with
`sin_theta^2 + cos_theta^2 = 1`: when `hit` succeeds, the returned normal
satisfies `normal.x^2 + normal.y^2 + normal.z^2 = 1`. -/
theorem hit_normal_unit_length (H : hitable K) (hH : H.from_rects) (hu : H.unit_rotations)
    (r : ray K) (t_min t_max : K) (rec : hit_record K)
    (hs : (H.hit r t_min t_max rec).1 = true) :
    (H.hit r t_min t_max rec).2.normal.x * (H.hit r t_min t_max rec).2.normal.x
      + (H.hit r t_min t_max rec).2.normal.y * (H.hit r t_min t_max rec).2.normal.y
      + (H.hit r t_min t_max rec).2.normal.z * (H.hit r t_min t_max rec).2.normal.z
      = float.fin 1 := by
  obtain ⟨n, hn, h1⟩ := hit_normal_numbers H hH hu r t_min t_max rec hs
  rw [hn]
  simp only [vec3.lift, float.fin_mul_fin, float.fin_add_fin, float.fin.injEq]
  linear_combination h1

theorem hit_normal_unit_length_witness :
    ((hitable.rotate_y (hitable.translate (hitable.flip_normals
          (hitable.xy_rect (3 : ℚ) 5 1 3 2 7)) ⟨0, 0, 5⟩) (3 / 5) (4 / 5) true
          ⟨⟨0, 0, 0⟩, ⟨0, 0, 0⟩⟩).hit
        ⟨⟨16 / 5, 2, -12 / 5⟩, ⟨3 / 5, 0, 4 / 5⟩, 0⟩ 0 100
        ⟨.fin 11, .fin 12, .fin 13, ⟨.fin 14, .fin 15, .fin 16⟩,
          ⟨.fin 17, .fin 18, .fin 19⟩, 20⟩).1 = true ∧
    ((hitable.rotate_y (hitable.translate (hitable.flip_normals
          (hitable.xy_rect (3 : ℚ) 5 1 3 2 7)) ⟨0, 0, 5⟩) (3 / 5) (4 / 5) true
          ⟨⟨0, 0, 0⟩, ⟨0, 0, 0⟩⟩).hit
        ⟨⟨16 / 5, 2, -12 / 5⟩, ⟨3 / 5, 0, 4 / 5⟩, 0⟩ 0 100
        ⟨.fin 11, .fin 12, .fin 13, ⟨.fin 14, .fin 15, .fin 16⟩,
          ⟨.fin 17, .fin 18, .fin 19⟩, 20⟩).2.normal.x * ((hitable.rotate_y (hitable.translate (hitable.flip_normals
          (hitable.xy_rect (3 : ℚ) 5 1 3 2 7)) ⟨0, 0, 5⟩) (3 / 5) (4 / 5) true
          ⟨⟨0, 0, 0⟩, ⟨0, 0, 0⟩⟩).hit
        ⟨⟨16 / 5, 2, -12 / 5⟩, ⟨3 / 5, 0, 4 / 5⟩, 0⟩ 0 100
        ⟨.fin 11, .fin 12, .fin 13, ⟨.fin 14, .fin 15, .fin 16⟩,
          ⟨.fin 17, .fin 18, .fin 19⟩, 20⟩).2.normal.x
      + ((hitable.rotate_y (hitable.translate (hitable.flip_normals
          (hitable.xy_rect (3 : ℚ) 5 1 3 2 7)) ⟨0, 0, 5⟩) (3 / 5) (4 / 5) true
          ⟨⟨0, 0, 0⟩, ⟨0, 0, 0⟩⟩).hit
        ⟨⟨16 / 5, 2, -12 / 5⟩, ⟨3 / 5, 0, 4 / 5⟩, 0⟩ 0 100
        ⟨.fin 11, .fin 12, .fin 13, ⟨.fin 14, .fin 15, .fin 16⟩,
          ⟨.fin 17, .fin 18, .fin 19⟩, 20⟩).2.normal.y * ((hitable.rotate_y (hitable.translate (hitable.flip_normals
          (hitable.xy_rect (3 : ℚ) 5 1 3 2 7)) ⟨0, 0, 5⟩) (3 / 5) (4 / 5) true
          ⟨⟨0, 0, 0⟩, ⟨0, 0, 0⟩⟩).hit
        ⟨⟨16 / 5, 2, -12 / 5⟩, ⟨3 / 5, 0, 4 / 5⟩, 0⟩ 0 100
        ⟨.fin 11, .fin 12, .fin 13, ⟨.fin 14, .fin 15, .fin 16⟩,
          ⟨.fin 17, .fin 18, .fin 19⟩, 20⟩).2.normal.y
      + ((hitable.rotate_y (hitable.translate (hitable.flip_normals
          (hitable.xy_rect (3 : ℚ) 5 1 3 2 7)) ⟨0, 0, 5⟩) (3 / 5) (4 / 5) true
          ⟨⟨0, 0, 0⟩, ⟨0, 0, 0⟩⟩).hit
        ⟨⟨16 / 5, 2, -12 / 5⟩, ⟨3 / 5, 0, 4 / 5⟩, 0⟩ 0 100
        ⟨.fin 11, .fin 12, .fin 13, ⟨.fin 14, .fin 15, .fin 16⟩,
          ⟨.fin 17, .fin 18, .fin 19⟩, 20⟩).2.normal.z * ((hitable.rotate_y (hitable.translate (hitable.flip_normals
          (hitable.xy_rect (3 : ℚ) 5 1 3 2 7)) ⟨0, 0, 5⟩) (3 / 5) (4 / 5) true
          ⟨⟨0, 0, 0⟩, ⟨0, 0, 0⟩⟩).hit
        ⟨⟨16 / 5, 2, -12 / 5⟩, ⟨3 / 5, 0, 4 / 5⟩, 0⟩ 0 100
        ⟨.fin 11, .fin 12, .fin 13, ⟨.fin 14, .fin 15, .fin 16⟩,
          ⟨.fin 17, .fin 18, .fin 19⟩, 20⟩).2.normal.z
      = float.fin 1 :=
  have hs : ((hitable.rotate_y (hitable.translate (hitable.flip_normals
          (hitable.xy_rect (3 : ℚ) 5 1 3 2 7)) ⟨0, 0, 5⟩) (3 / 5) (4 / 5) true
          ⟨⟨0, 0, 0⟩, ⟨0, 0, 0⟩⟩).hit
        ⟨⟨16 / 5, 2, -12 / 5⟩, ⟨3 / 5, 0, 4 / 5⟩, 0⟩ 0 100
        ⟨.fin 11, .fin 12, .fin 13, ⟨.fin 14, .fin 15, .fin 16⟩,
          ⟨.fin 17, .fin 18, .fin 19⟩, 20⟩).1 = true := by rw [nested_scenario_hit]
  ⟨hs, hit_normal_unit_length _ (by simp [hitable.from_rects])
    (by norm_num [hitable.unit_rotations]) _ _ _ _ hs⟩

theorem rotate_y_box_encloses_rotation_witness :
    ((rotate_y_new circle_sin circle_cos (hitable.xy_rect (3 : ℚ) 5 1 3 2 7) 30
        ⟨⟨0, 0, 0⟩, ⟨0, 0, 0⟩⟩).bounding_box 0 1 ⟨⟨0, 0, 0⟩, ⟨0, 0, 0⟩⟩).1 = true ∧
    (((rotate_y_new circle_sin circle_cos (hitable.xy_rect (3 : ℚ) 5 1 3 2 7) 30
        ⟨⟨0, 0, 0⟩, ⟨0, 0, 0⟩⟩).bounding_box 0 1 ⟨⟨0, 0, 0⟩, ⟨0, 0, 0⟩⟩).2.min.x
        ≤ circle_cos ((3.1428 / 180) * 30) * 4 + circle_sin ((3.1428 / 180) * 30) * 2 ∧
      circle_cos ((3.1428 / 180) * 30) * 4 + circle_sin ((3.1428 / 180) * 30) * 2
        ≤ ((rotate_y_new circle_sin circle_cos (hitable.xy_rect (3 : ℚ) 5 1 3 2 7) 30
        ⟨⟨0, 0, 0⟩, ⟨0, 0, 0⟩⟩).bounding_box 0 1 ⟨⟨0, 0, 0⟩, ⟨0, 0, 0⟩⟩).2.max.x) :=
  have h := rotate_y_box_encloses_rotation circle_sin circle_cos
    (hitable.xy_rect (3 : ℚ) 5 1 3 2 7) 30 ⟨⟨0, 0, 0⟩, ⟨0, 0, 0⟩⟩ ⟨4, 2, 2⟩ 0 1
    ⟨⟨0, 0, 0⟩, ⟨0, 0, 0⟩⟩
    (by simp [hitable.bounding_box])
    (by norm_num [hitable.bounding_box, aabb.min, aabb.max])
    (by norm_num [hitable.bounding_box, aabb.min, aabb.max])
    (by norm_num [hitable.bounding_box, aabb.min, aabb.max])
  ⟨h.1, h.2.1⟩

/-! ## The decorators: same interval, same `t` -/

/-- Claim C17: for each decorator `D` among `flip_normals`, `translate` and
`rotate_y`, every wrapped object `S`, ray `R` and interval: `D.hit` succeeds
exactly when `S.hit` succeeds on the same interval for the ray `R'`, which is
`R` for `flip_normals`, `R` with origin `origin - offset` for `translate`, and
`R` with origin and direction turned by `x' = cos*x - sin*z`,
`z' = sin*x + cos*z` for `rotate_y`, the time being that of `R`.  On success
`t`, `u`, `v` and `mat_ptr` are those of `S`'s record; `flip_normals` also
keeps `p`, `translate` also keeps `normal`, and `rotate_y` also keeps the `y`
components of `p` and `normal`. -/
theorem decorators_keep_interval_and_t (S : hitable K) (O : vec3 K) (sin_theta cos_theta : K)
    (hasbox : Bool) (bbox : aabb K) (R : ray K) (t_min t_max : K) (rec : hit_record K) :
    (((hitable.flip_normals S).hit R t_min t_max rec).1 = (S.hit R t_min t_max rec).1 ∧
      ((S.hit R t_min t_max rec).1 = true →
        ((hitable.flip_normals S).hit R t_min t_max rec).2.t = (S.hit R t_min t_max rec).2.t ∧
        ((hitable.flip_normals S).hit R t_min t_max rec).2.u = (S.hit R t_min t_max rec).2.u ∧
        ((hitable.flip_normals S).hit R t_min t_max rec).2.v = (S.hit R t_min t_max rec).2.v ∧
        ((hitable.flip_normals S).hit R t_min t_max rec).2.mat_ptr
          = (S.hit R t_min t_max rec).2.mat_ptr ∧
        ((hitable.flip_normals S).hit R t_min t_max rec).2.p = (S.hit R t_min t_max rec).2.p)) ∧
    (((hitable.translate S O).hit R t_min t_max rec).1
        = (S.hit ⟨R.origin - O, R.direction, R.time⟩ t_min t_max rec).1 ∧
      ((S.hit ⟨R.origin - O, R.direction, R.time⟩ t_min t_max rec).1 = true →
        ((hitable.translate S O).hit R t_min t_max rec).2.t
          = (S.hit ⟨R.origin - O, R.direction, R.time⟩ t_min t_max rec).2.t ∧
        ((hitable.translate S O).hit R t_min t_max rec).2.u
          = (S.hit ⟨R.origin - O, R.direction, R.time⟩ t_min t_max rec).2.u ∧
        ((hitable.translate S O).hit R t_min t_max rec).2.v
          = (S.hit ⟨R.origin - O, R.direction, R.time⟩ t_min t_max rec).2.v ∧
        ((hitable.translate S O).hit R t_min t_max rec).2.mat_ptr
          = (S.hit ⟨R.origin - O, R.direction, R.time⟩ t_min t_max rec).2.mat_ptr ∧
        ((hitable.translate S O).hit R t_min t_max rec).2.normal
          = (S.hit ⟨R.origin - O, R.direction, R.time⟩ t_min t_max rec).2.normal)) ∧
    (((hitable.rotate_y S sin_theta cos_theta hasbox bbox).hit R t_min t_max rec).1
        = (S.hit ⟨⟨cos_theta * R.origin.x - sin_theta * R.origin.z, R.origin.y,
                    sin_theta * R.origin.x + cos_theta * R.origin.z⟩,
                  ⟨cos_theta * R.direction.x - sin_theta * R.direction.z, R.direction.y,
                    sin_theta * R.direction.x + cos_theta * R.direction.z⟩,
                  R.time⟩ t_min t_max rec).1 ∧
      ((S.hit ⟨⟨cos_theta * R.origin.x - sin_theta * R.origin.z, R.origin.y,
                    sin_theta * R.origin.x + cos_theta * R.origin.z⟩,
                  ⟨cos_theta * R.direction.x - sin_theta * R.direction.z, R.direction.y,
                    sin_theta * R.direction.x + cos_theta * R.direction.z⟩,
                  R.time⟩ t_min t_max rec).1 = true →
        ((hitable.rotate_y S sin_theta cos_theta hasbox bbox).hit R t_min t_max rec).2.t
          = (S.hit ⟨⟨cos_theta * R.origin.x - sin_theta * R.origin.z, R.origin.y,
                    sin_theta * R.origin.x + cos_theta * R.origin.z⟩,
                  ⟨cos_theta * R.direction.x - sin_theta * R.direction.z, R.direction.y,
                    sin_theta * R.direction.x + cos_theta * R.direction.z⟩,
                  R.time⟩ t_min t_max rec).2.t ∧
        ((hitable.rotate_y S sin_theta cos_theta hasbox bbox).hit R t_min t_max rec).2.u
          = (S.hit ⟨⟨cos_theta * R.origin.x - sin_theta * R.origin.z, R.origin.y,
                    sin_theta * R.origin.x + cos_theta * R.origin.z⟩,
                  ⟨cos_theta * R.direction.x - sin_theta * R.direction.z, R.direction.y,
                    sin_theta * R.direction.x + cos_theta * R.direction.z⟩,
                  R.time⟩ t_min t_max rec).2.u ∧
        ((hitable.rotate_y S sin_theta cos_theta hasbox bbox).hit R t_min t_max rec).2.v
          = (S.hit ⟨⟨cos_theta * R.origin.x - sin_theta * R.origin.z, R.origin.y,
                    sin_theta * R.origin.x + cos_theta * R.origin.z⟩,
                  ⟨cos_theta * R.direction.x - sin_theta * R.direction.z, R.direction.y,
                    sin_theta * R.direction.x + cos_theta * R.direction.z⟩,
                  R.time⟩ t_min t_max rec).2.v ∧
        ((hitable.rotate_y S sin_theta cos_theta hasbox bbox).hit R t_min t_max rec).2.mat_ptr
          = (S.hit ⟨⟨cos_theta * R.origin.x - sin_theta * R.origin.z, R.origin.y,
                    sin_theta * R.origin.x + cos_theta * R.origin.z⟩,
                  ⟨cos_theta * R.direction.x - sin_theta * R.direction.z, R.direction.y,
                    sin_theta * R.direction.x + cos_theta * R.direction.z⟩,
                  R.time⟩ t_min t_max rec).2.mat_ptr ∧
        ((hitable.rotate_y S sin_theta cos_theta hasbox bbox).hit R t_min t_max rec).2.p.y
          = (S.hit ⟨⟨cos_theta * R.origin.x - sin_theta * R.origin.z, R.origin.y,
                    sin_theta * R.origin.x + cos_theta * R.origin.z⟩,
                  ⟨cos_theta * R.direction.x - sin_theta * R.direction.z, R.direction.y,
                    sin_theta * R.direction.x + cos_theta * R.direction.z⟩,
                  R.time⟩ t_min t_max rec).2.p.y ∧
        ((hitable.rotate_y S sin_theta cos_theta hasbox bbox).hit R t_min t_max rec).2.normal.y
          = (S.hit ⟨⟨cos_theta * R.origin.x - sin_theta * R.origin.z, R.origin.y,
                    sin_theta * R.origin.x + cos_theta * R.origin.z⟩,
                  ⟨cos_theta * R.direction.x - sin_theta * R.direction.z, R.direction.y,
                    sin_theta * R.direction.x + cos_theta * R.direction.z⟩,
                  R.time⟩ t_min t_max rec).2.normal.y)) := by
  have hm : (⟨R.origin - O, R.direction, R.time⟩ : ray K) = translate_moved_r O R := rfl
  have hr : (⟨⟨cos_theta * R.origin.x - sin_theta * R.origin.z, R.origin.y,
                    sin_theta * R.origin.x + cos_theta * R.origin.z⟩,
                  ⟨cos_theta * R.direction.x - sin_theta * R.direction.z, R.direction.y,
                    sin_theta * R.direction.x + cos_theta * R.direction.z⟩,
                  R.time⟩ : ray K) = rotate_y_rotated_r sin_theta cos_theta R := rfl
  rw [hm, hr, hit_flip_normals, hit_translate, hit_rotate_y]
  refine ⟨?_, ?_, ?_⟩
  · by_cases h : (S.hit R t_min t_max rec).1 = true
    · rw [if_pos h]
      exact ⟨h.symm, fun _ => ⟨rfl, rfl, rfl, rfl, rfl⟩⟩
    · rw [if_neg h]
      exact ⟨(Bool.not_eq_true _ ▸ h).symm, fun h2 => absurd h2 h⟩
  · by_cases h : (S.hit (translate_moved_r O R) t_min t_max rec).1 = true
    · rw [if_pos h]
      exact ⟨h.symm, fun _ => ⟨rfl, rfl, rfl, rfl, rfl⟩⟩
    · rw [if_neg h]
      exact ⟨(Bool.not_eq_true _ ▸ h).symm, fun h2 => absurd h2 h⟩
  · by_cases h : (S.hit (rotate_y_rotated_r sin_theta cos_theta R) t_min t_max rec).1 = true
    · rw [if_pos h]
      exact ⟨h.symm, fun _ => ⟨rfl, rfl, rfl, rfl, rfl, rfl⟩⟩
    · rw [if_neg h]
      exact ⟨(Bool.not_eq_true _ ▸ h).symm, fun h2 => absurd h2 h⟩

theorem decorators_keep_interval_and_t_witness :
    ((hitable.flip_normals (hitable.xy_rect (3 : ℚ) 5 1 3 2 7)).hit
        ⟨⟨4, 2, 0⟩, ⟨0, 0, 1⟩, 0⟩ 0 100
        ⟨.fin 11, .fin 12, .fin 13, ⟨.fin 14, .fin 15, .fin 16⟩,
          ⟨.fin 17, .fin 18, .fin 19⟩, 20⟩).2.t = .fin 2 ∧
    ((hitable.translate (hitable.xy_rect (3 : ℚ) 5 1 3 2 7) ⟨0, 0, 5⟩).hit
        ⟨⟨4, 2, 0⟩, ⟨0, 0, 1⟩, 0⟩ 0 100
        ⟨.fin 11, .fin 12, .fin 13, ⟨.fin 14, .fin 15, .fin 16⟩,
          ⟨.fin 17, .fin 18, .fin 19⟩, 20⟩).2.t = .fin 7 ∧
    ((hitable.rotate_y (hitable.xy_rect (3 : ℚ) 5 1 3 2 7) (3 / 5) (4 / 5) true
          ⟨⟨0, 0, 0⟩, ⟨0, 0, 0⟩⟩).hit
        ⟨⟨16 / 5, 2, -12 / 5⟩, ⟨3 / 5, 0, 4 / 5⟩, 0⟩ 0 100
        ⟨.fin 11, .fin 12, .fin 13, ⟨.fin 14, .fin 15, .fin 16⟩,
          ⟨.fin 17, .fin 18, .fin 19⟩, 20⟩).2.t = .fin 2 := by
  have h1 := decorators_keep_interval_and_t (hitable.xy_rect (3 : ℚ) 5 1 3 2 7) ⟨0, 0, 5⟩
    (3 / 5) (4 / 5) true ⟨⟨0, 0, 0⟩, ⟨0, 0, 0⟩⟩ ⟨⟨4, 2, 0⟩, ⟨0, 0, 1⟩, 0⟩ 0 100
    ⟨.fin 11, .fin 12, .fin 13, ⟨.fin 14, .fin 15, .fin 16⟩,
          ⟨.fin 17, .fin 18, .fin 19⟩, 20⟩
  have h2 := decorators_keep_interval_and_t (hitable.xy_rect (3 : ℚ) 5 1 3 2 7) ⟨0, 0, 5⟩
    (3 / 5) (4 / 5) true ⟨⟨0, 0, 0⟩, ⟨0, 0, 0⟩⟩ ⟨⟨16 / 5, 2, -12 / 5⟩, ⟨3 / 5, 0, 4 / 5⟩, 0⟩ 0 100
    ⟨.fin 11, .fin 12, .fin 13, ⟨.fin 14, .fin 15, .fin 16⟩,
          ⟨.fin 17, .fin 18, .fin 19⟩, 20⟩
  have e2 : ∀ R : ray ℚ, R = ⟨⟨4, 2, 0⟩, ⟨0, 0, 1⟩, 0⟩ →
      (⟨R.origin - ⟨0, 0, 5⟩, R.direction, R.time⟩ : ray ℚ) = ⟨⟨4, 2, -5⟩, ⟨0, 0, 1⟩, 0⟩ := by
    rintro R rfl
    norm_num [ray.origin, ray.direction, ray.time, vec3_sub_def]
  have e3 : ∀ R : ray ℚ, R = ⟨⟨16 / 5, 2, -12 / 5⟩, ⟨3 / 5, 0, 4 / 5⟩, 0⟩ →
      (⟨⟨4 / 5 * R.origin.x - 3 / 5 * R.origin.z, R.origin.y,
          3 / 5 * R.origin.x + 4 / 5 * R.origin.z⟩,
        ⟨4 / 5 * R.direction.x - 3 / 5 * R.direction.z, R.direction.y,
          3 / 5 * R.direction.x + 4 / 5 * R.direction.z⟩, R.time⟩ : ray ℚ)
        = ⟨⟨4, 2, 0⟩, ⟨0, 0, 1⟩, 0⟩ := by
    rintro R rfl
    norm_num [ray.origin, ray.direction, ray.time]
  have hmoved : ∀ rec : hit_record ℚ,
      (hitable.xy_rect (3 : ℚ) 5 1 3 2 7).hit ⟨⟨4, 2, -5⟩, ⟨0, 0, 1⟩, 0⟩ 0 100 rec =
        (true, ⟨.fin 7, .fin (1 / 2), .fin (1 / 2), ⟨.fin 4, .fin 2, .fin 2⟩,
          ⟨.fin 0, .fin 0, .fin 1⟩, 7⟩) := by
    intro rec
    simp [hit_xy_rect, xy_rect_hit, ray.origin, ray.direction, ray.point_at_parameter]
    norm_num
  rw [e2 _ rfl] at h1
  rw [e3 _ rfl] at h2
  refine ⟨?_, ?_, ?_⟩
  · rw [(h1.1.2 (by rw [xy_rect_scenario_hit])).1, xy_rect_scenario_hit]
  · rw [(h1.2.1.2 (by rw [hmoved])).1, hmoved]
  · rw [(h2.2.2.2 (by rw [xy_rect_scenario_hit])).1, xy_rect_scenario_hit]

/-- Claim C20: for every wrapped object `S` and all offsets `A` and `B`,
`translate(translate(S,A),B)` and `translate(S,A+B)` give, for every ray,
interval and initial record, the same outcome and the same record from `hit`,
and for every `(t0,t1)` and box passed in the same outcome and the same box
from `bounding_box`. -/
theorem translate_translate (S : hitable K) (A B : vec3 K) :
    (∀ (r : ray K) (t_min t_max : K) (rec : hit_record K),
      (hitable.translate (hitable.translate S A) B).hit r t_min t_max rec
        = (hitable.translate S (A + B)).hit r t_min t_max rec) ∧
    (∀ (t0 t1 : K) (box : aabb K),
      (hitable.translate (hitable.translate S A) B).bounding_box t0 t1 box
        = (hitable.translate S (A + B)).bounding_box t0 t1 box) := by
  constructor
  · intro r t_min t_max rec
    have hr : translate_moved_r A (translate_moved_r B r) = translate_moved_r (A + B) r := by
      simp only [translate_moved_r, ray.origin, ray.direction, ray.time, vec3_sub_def,
        vec3_add_def, ray.mk.injEq, vec3.mk.injEq, and_true]
      exact ⟨by ring, by ring, by ring⟩
    rw [hit_translate, hit_translate, hit_translate, hr]
    by_cases h : (S.hit (translate_moved_r (A + B) r) t_min t_max rec).1 = true
    · simp only [if_pos h, if_true, Prod.mk.injEq, true_and, hit_record.mk.injEq, and_true]
      simp only [vec3_add_def, vec3.lift, float_add_fin_add_fin]
    · simp only [if_neg h, Bool.false_eq_true, if_false]
  · intro t0 t1 box
    rw [bounding_box_translate, bounding_box_translate, bounding_box_translate]
    by_cases h : (S.bounding_box t0 t1 box).1 = true
    · simp only [if_pos h, if_true, Prod.mk.injEq, true_and, aabb.mk.injEq, aabb.min, aabb.max,
        vec3_add_def, vec3.mk.injEq]
      exact ⟨⟨by ring, by ring, by ring⟩, by ring, by ring, by ring⟩
    · simp only [if_neg h, Bool.false_eq_true, if_false]

/-! ## The box of a rectangle as stored in `float` -/

theorem round_half_even_eq (y : ℚ) (z : ℤ) (h1 : (z : ℚ) - 1 / 2 < y) (h2 : y < z + 1 / 2) :
    round_half_even y = z := by
  unfold round_half_even
  rcases le_or_lt (z : ℚ) y with h | h
  · have hf : ⌊y⌋ = z := Int.floor_eq_iff.mpr ⟨h, by linarith⟩
    rw [hf, if_pos (by linarith)]
  · have hf : ⌊y⌋ = z - 1 :=
      Int.floor_eq_iff.mpr ⟨by push_cast; linarith, by push_cast; linarith⟩
    rw [hf, if_neg (by push_cast; linarith), if_pos (by push_cast; linarith)]
    ring

theorem int_log_two_eq (x : ℚ) (n : ℤ) (h1 : (2 : ℚ) ^ n ≤ x) (h2 : x < (2 : ℚ) ^ (n + 1)) :
    Int.log 2 x = n := by
  have hx : 0 < x := lt_of_lt_of_le (by positivity) h1
  apply le_antisymm
  · have h := (Int.lt_zpow_iff_log_lt (b := 2) (by norm_num) hx).mp (by exact_mod_cast h2)
    omega
  · exact (Int.zpow_le_iff_le_log (b := 2) (by norm_num) hx).mp (by exact_mod_cast h1)

/-- The rounding of a positive `x` with `2^n <= x < 2^(n+1)` whose scaled value
`x / 2^(n-p)` lies within a half of the integer `m`. -/
theorem round_binary_eq (p : ℕ) (x : ℚ) (n m : ℤ) (hlo : (2 : ℚ) ^ n ≤ x)
    (hhi : x < (2 : ℚ) ^ (n + 1)) (h1 : (m : ℚ) - 1 / 2 < x / 2 ^ (n - (p : ℤ)))
    (h2 : x / 2 ^ (n - (p : ℤ)) < m + 1 / 2) :
    round_binary p x = m * 2 ^ (n - (p : ℤ)) := by
  have hx : 0 < x := lt_of_lt_of_le (by positivity) hlo
  unfold round_binary
  simp only [abs_of_pos hx, int_log_two_eq x n hlo hhi]
  rw [round_half_even_eq _ m h1 h2]

/-- The `double` literal `0.0001`. -/
theorem to_double_literal : to_double 0.0001 = 7378697629483821 * 2 ^ (-66 : ℤ) := by
  have h := round_binary_eq 52 0.0001 (-14) 7378697629483821 (by norm_num) (by norm_num)
    (by norm_num) (by norm_num)
  simpa [to_double] using h

/-- The `float` stored for `k - 0.0001` when `k` is 4096. -/
theorem to_float_4096_minus : to_float (to_double (4096 - to_double 0.0001)) = 4096 := by
  rw [to_double_literal]
  have h1 : to_double (4096 - 7378697629483821 * 2 ^ (-66 : ℤ))
      = 9007199034838666 * 2 ^ (-41 : ℤ) := by
    have h := round_binary_eq 52 (4096 - 7378697629483821 * 2 ^ (-66 : ℤ)) 11 9007199034838666
      (by norm_num) (by norm_num) (by norm_num) (by norm_num)
    simpa [to_double] using h
  rw [h1]
  have h := round_binary_eq 23 (9007199034838666 * 2 ^ (-41 : ℤ)) 11 16777216
    (by norm_num) (by norm_num) (by norm_num) (by norm_num)
  rw [to_float, h]
  norm_num

/-- The `float` stored for `k + 0.0001` when `k` is 4096. -/
theorem to_float_4096_plus : to_float (to_double (4096 + to_double 0.0001)) = 4096 := by
  rw [to_double_literal]
  have h1 : to_double (4096 + 7378697629483821 * 2 ^ (-66 : ℤ))
      = 4503599737321659 * 2 ^ (-40 : ℤ) := by
    have h := round_binary_eq 52 (4096 + 7378697629483821 * 2 ^ (-66 : ℤ)) 12 4503599737321659
      (by norm_num) (by norm_num) (by norm_num) (by norm_num)
    simpa [to_double] using h
  rw [h1]
  have h := round_binary_eq 23 (4503599737321659 * 2 ^ (-40 : ℤ)) 12 8388608
    (by norm_num) (by norm_num) (by norm_num) (by norm_num)
  rw [to_float, h]
  norm_num

/-- Claim C14, the code at a rectangle far from the origin: for the `xy_rect`
with `x` in `[3,5]`, `y` in `[1,3]` and `k = 4096`, `bounding_box` returns true
and stores the corners `(3,1,4096)` and `(5,3,4096)`: `k - 0.0001` and
`k + 0.0001` both convert to the `float` 4096, so the extent of the box along
the plane axis is zero, not strictly positive. -/
theorem bounding_box_zero_thickness :
    xy_rect_bounding_box_float 3 5 1 3 4096 0 1 ⟨⟨0, 0, 0⟩, ⟨0, 0, 0⟩⟩
      = (true, ⟨⟨3, 1, 4096⟩, ⟨5, 3, 4096⟩⟩) ∧
    ¬ ((xy_rect_bounding_box_float 3 5 1 3 4096 0 1 ⟨⟨0, 0, 0⟩, ⟨0, 0, 0⟩⟩).2.min.z
        < (xy_rect_bounding_box_float 3 5 1 3 4096 0 1 ⟨⟨0, 0, 0⟩, ⟨0, 0, 0⟩⟩).2.max.z) := by
  simp only [xy_rect_bounding_box_float, to_float_4096_minus, to_float_4096_plus, aabb.min,
    aabb.max, lt_self_iff_false, not_false_eq_true, and_self]

end Theorems

end PathTracer
